import Mathlib

/-!
Verification of the type-expression resolver (mypy/typeanal.py).

This file gives a shallow embedding of the resolver: the canonical type
representation, the analyzer state (diagnostics, deferral flags, nesting
level, type-variable scope), and the resolution functions, translated from
the source.  Functions of collaborating modules that are not part of the
source under verification (mypy.types helpers, mypy.nodes argument checkers,
mypy.tvar_scope, the driver interface) are modelled from the specification
and marked as such in their doc comments.

Conventions of the embedding:
  * line/column provenance is dropped; the specification's equalities are
    structural equalities, which disregard position;
  * Python exceptions (assert failures, KeyError from a failed fully
    qualified lookup) are the `Res.raised` outcome, which carries the state
    at the moment of the raise (Python mutates the analyzer in place, so an
    escaping exception leaves the mutated state behind);
  * the driver's defer() and record_incomplete_ref() side channel is a pair
    of monotone booleans in the analyzer state;
  * recursion through the symbol table (a class's declared tuple base is
    re-resolved) is not structural, so the resolver family takes a fuel
    argument; exhausting fuel is the `Res.out` outcome, distinct from a
    raised exception.
-/

set_option linter.unusedVariables false
set_option maxHeartbeats 2000000

/-- Provenance tag of the dynamic/unknown type (mypy.types.TypeOfAny). -/
inductive TypeOfAny : Type where
  | explicit
  | fromError
  | specialForm
  | fromOmittedGenerics
  | fromUnimportedType
  deriving DecidableEq, Repr

/-- Scalar payload of a literal type. -/
inductive LitVal : Type where
  | i (n : Int)
  | s (v : String)
  | b (v : Bool)
  deriving DecidableEq, Repr

/-- Argument kind constants (mypy.nodes.ARG_POS and friends). -/
def ARG_POS : Nat := 0

/-- Optional positional argument kind. -/
def ARG_OPT : Nat := 1

/-- Star (varargs) argument kind. -/
def ARG_STAR : Nat := 2

/-- Named argument kind. -/
def ARG_NAMED : Nat := 3

/-- Double-star (kwargs) argument kind. -/
def ARG_STAR2 : Nat := 4

/-- Optional named argument kind. -/
def ARG_NAMED_OPT : Nat := 5

mutual

/-- Canonical and unresolved type representation (the mypy.types variants
used by the resolver).  `unbound` is the unresolved named reference;
`partl` is mypy's PartialType; the rest mirror the source constructors. -/
inductive MType : Type where
  | unbound (name : String) (args : List MType) (optional : Bool)
      (emptyTupleIndex : Bool) (originalStrExpr : Option String)
      (originalStrFallback : Option String)
  | anyT (provenance : TypeOfAny) (missingImportName : Option String)
  | noneT
  | uninhabited (isNoreturn : Bool)
  | deleted
  | typeList (items : List MType)
  | callableArg (typ : MType) (argName : Option String) (constr : Option String)
  | inst (info : TypeInfo) (args : List MType) (invalid : Bool)
      (lastKnownValue : Option MType)
  | typeVarT (defn : TypeVarDefL)
  | callable (argTypes : List MType) (argKinds : List Nat)
      (argNames : List (Option String)) (retType : MType) (fallback : MType)
      (tvars : List TypeVarDefL) (isEllipsisArgs : Bool)
  | tupleT (items : List MType) (fallback : MType) (implicit : Bool)
  | typedDict (items : List (String × MType)) (requiredKeys : List String)
      (fallback : MType)
  | rawExpr (baseTypeName : String) (literalValue : Option LitVal)
      (noteMsg : Option String)
  | literalT (value : LitVal) (fallback : MType)
  | starT (typ : MType)
  | unionT (items : List MType)
  | partl
  | ellipsisT
  | typeTypeT (item : MType)
  | placeholder (fullname : Option String) (args : List MType)

/-- Class descriptor (mypy.nodes.TypeInfo, restricted to the fields the
resolver reads): short and qualified name, declared type-variable names,
optional declared tuple base and typed-dict base, enum flag, and the
falsey FakeInfo marker used for not-yet-filled fallbacks. -/
inductive TypeInfo : Type where
  | mk (name : String) (fullname : String) (typeVars : List String)
      (tupleType : Option MType) (typedDictType : Option MType)
      (isEnum : Bool) (fake : Bool)

/-- Type-variable binding record (mypy.types.TypeVarDef). -/
inductive TypeVarDefL : Type where
  | mk (name : String) (fullname : String) (id : Int) (values : List MType)
      (upperBound : MType) (variance : Int)

end

/-- Short name of a class descriptor. -/
def TypeInfo.name : TypeInfo → String
  | .mk n _ _ _ _ _ _ => n

/-- Qualified name of a class descriptor. -/
def TypeInfo.fullname : TypeInfo → String
  | .mk _ fn _ _ _ _ _ => fn

/-- Declared type-variable names of a class descriptor. -/
def TypeInfo.typeVars : TypeInfo → List String
  | .mk _ _ tv _ _ _ _ => tv

/-- Declared tuple base of a class descriptor, if any. -/
def TypeInfo.tupleType : TypeInfo → Option MType
  | .mk _ _ _ tup _ _ _ => tup

/-- Declared typed-dict base of a class descriptor, if any. -/
def TypeInfo.typedDictType : TypeInfo → Option MType
  | .mk _ _ _ _ td _ _ => td

/-- Whether the class is an enum. -/
def TypeInfo.isEnum : TypeInfo → Bool
  | .mk _ _ _ _ _ e _ => e

/-- Whether this is the falsey FakeInfo placeholder. -/
def TypeInfo.fake : TypeInfo → Bool
  | .mk _ _ _ _ _ _ f => f

/-- Name of a type-variable binding. -/
def TypeVarDefL.name : TypeVarDefL → String
  | .mk n _ _ _ _ _ => n

/-- Qualified name of a type-variable binding. -/
def TypeVarDefL.fullname : TypeVarDefL → String
  | .mk _ fn _ _ _ _ => fn

/-- Numeric id of a type-variable binding. -/
def TypeVarDefL.id : TypeVarDefL → Int
  | .mk _ _ i _ _ _ => i

/-- Permitted-value set of a constrained type variable. -/
def TypeVarDefL.values : TypeVarDefL → List MType
  | .mk _ _ _ v _ _ => v

/-- Upper bound of a type-variable binding. -/
def TypeVarDefL.upperBound : TypeVarDefL → MType
  | .mk _ _ _ _ ub _ => ub

/-- Variance of a type-variable binding. -/
def TypeVarDefL.variance : TypeVarDefL → Int
  | .mk _ _ _ _ _ v => v

/-- Payload of a TypeVarExpr symbol node (name, qualified name, constraint
values, upper bound, variance). -/
structure TVExpr where
  name : String
  fullname : String
  values : List MType
  upperBound : MType
  variance : Int

/-- Equality of TypeVarExpr references models Python object identity: the
nodes define no structural equality, and two lookups of the same qualified
name return the same object, so identity is keyed by the qualified name. -/
instance : BEq TVExpr := ⟨fun a b => a.name == b.name && a.fullname == b.fullname⟩

/-- Symbol-table node contents (mypy.nodes): a placeholder forward
reference, a class, a type alias, a variable, a TypeVarExpr, a function or
decorated function, or a module. -/
inductive SymNode : Type where
  | placeholderNode (fullname : String) (becomesTypeinfo : Bool)
  | typeInfoNode (info : TypeInfo)
  | typeAliasNode (fullname : String) (target : MType) (aliasTvars : List String)
      (noArgs : Bool)
  | varNode (name : String) (fullname : String) (varType : Option MType)
      (enumInfo : Option TypeInfo)
  | typeVarExprNode (e : TVExpr)
  | funcNode (fullname : String)
  | decoratorNode (fullname : String)
  | moduleNode (fullname : String)
  | otherNode (fullname : String)

/-- Qualified name of a symbol node. -/
def SymNode.fullname : SymNode → String
  | .placeholderNode fn _ => fn
  | .typeInfoNode i => i.fullname
  | .typeAliasNode fn _ _ _ => fn
  | .varNode _ fn _ _ => fn
  | .typeVarExprNode e => e.fullname
  | .funcNode fn => fn
  | .decoratorNode fn => fn
  | .moduleNode fn => fn
  | .otherNode fn => fn

/-- A symbol-table entry: its kind tag (used only in one internal-error
message) and its node. -/
structure SymTableNode where
  kind : Nat
  node : Option SymNode

/-- Derived qualified name of a symbol-table entry (mypy's property:
the node's fullname when a node is present). -/
def SymTableNode.fullname (s : SymTableNode) : Option String :=
  s.node.map SymNode.fullname

/-- Modelled from the spec: the semantic-analysis driver interface
(mypy.semanal_shared.SemanticAnalyzerCoreInterface and the plugin hook
registry are outside the verified source).  Qualified and fully qualified
lookup, the final-iteration query, the incomplete-namespace query, and the
extension-hook registry. -/
structure Env where
  lookupQualified : String → Option SymTableNode
  lookupFqn : String → Option SymTableNode
  lookupFqnOrNone : String → Option SymTableNode
  finalIteration : Bool
  isIncompleteNamespace : String → Bool
  typeAnalyzeHook : String → Option (MType → MType)

/-- The recognized configuration options consumed by the resolver. -/
structure OptionsL where
  disallowAnyGenerics : Bool
  pythonVersionMajor : Nat

/-- Constructor flags of the analyzer (TypeAnalyser.__init__ keyword
arguments plus the options record). -/
structure AConfig where
  definingAlias : Bool
  allowTupleLiteral : Bool
  allowUnnormalized : Bool
  allowUnboundTvars : Bool
  allowPlaceholder : Bool
  reportInvalidTypes : Bool
  isTypeshedStub : Bool
  options : OptionsL

/-- Effective allow-unbound-tvars flag: the constructor or-joins the flag
with defining_alias. -/
def AConfig.allowUnboundTvarsEff (c : AConfig) : Bool :=
  c.allowUnboundTvars || c.definingAlias

/-- The fixed context of one analyzer: driver interface plus flags. -/
structure Ctx where
  env : Env
  cfg : AConfig

/-- Modelled from the spec: the Type Variable Scope (mypy/tvar_scope.py is
outside the verified source) — a chain of binding frames, innermost first,
with a decreasing id counter for function-scope bindings. -/
structure TVarScope where
  frames : List (List (String × TypeVarDefL))
  funcId : Int

/-- Look a qualified name up in one frame. -/
def frameLookup (fr : List (String × TypeVarDefL)) (fn : String) :
    Option TypeVarDefL :=
  (fr.find? (fun p => p.1 == fn)).map (·.2)

/-- Look a qualified name up walking frames innermost to outermost. -/
def framesLookup : List (List (String × TypeVarDefL)) → String → Option TypeVarDefL
  | [], _ => none
  | fr :: rest, fn =>
    match frameLookup fr fn with
    | some d => some d
    | none => framesLookup rest fn

/-- Push a fresh child frame (entering a nested signature). -/
def TVarScope.methodFrame (s : TVarScope) : TVarScope :=
  ⟨[] :: s.frames, s.funcId⟩

/-- Scope lookup by qualified name. -/
def TVarScope.getBindingByName (s : TVarScope) (fn : String) : Option TypeVarDefL :=
  framesLookup s.frames fn

/-- Scope lookup keyed by an optional qualified name (a symbol-table entry
with no node has no name and finds nothing). -/
def TVarScope.getBinding (s : TVarScope) (fn : Option String) : Option TypeVarDefL :=
  match fn with
  | none => none
  | some n => s.getBindingByName n

/-- Whether a fresh binding of this qualified name is allowed (no live
binding in any frame). -/
def TVarScope.allowBinding (s : TVarScope) (fn : String) : Bool :=
  (s.getBindingByName fn).isNone

/-- Bind a new type variable in the innermost frame, with a fresh negative
function-scope id. -/
def TVarScope.bindNew (s : TVarScope) (name : String) (e : TVExpr) :
    TVarScope × TypeVarDefL :=
  let i := s.funcId - 1
  let d : TypeVarDefL := .mk name e.fullname i e.values e.upperBound e.variance
  let frames :=
    match s.frames with
    | [] => [[(e.fullname, d)]]
    | fr :: rest => ((e.fullname, d) :: fr) :: rest
  (⟨frames, i⟩, d)

/-- Mutable analyzer state: diagnostics (newest first), notes, the two
driver signals (defer and record-incomplete-ref), the nesting counter, the
type-variable scope, and the alias names recorded as used. -/
structure AState where
  messages : List String
  notes : List String
  deferred : Bool
  incompleteRef : Bool
  nestingLevel : Nat
  tvarScope : TVarScope
  aliasesUsed : List String

/-- Emit one diagnostic. -/
def addMsg (s : AState) (m : String) : AState :=
  { s with messages := m :: s.messages }

/-- Emit a batch of diagnostics in order. -/
def addMsgs (s : AState) (ms : List String) : AState :=
  { s with messages := ms.reverse ++ s.messages }

/-- Emit one note. -/
def addNote (s : AState) (m : String) : AState :=
  { s with notes := m :: s.notes }

/-- Emit a batch of notes in order. -/
def addNotes (s : AState) (ms : List String) : AState :=
  { s with notes := ms.reverse ++ s.notes }

/-- Outcome of one resolver step: a value with the updated state, an
escaping Python exception with the state at the raise, or fuel exhaustion
(an artifact of the embedding, distinct from both). -/
inductive Res (α : Type) : Type where
  | ok (a : α) (s : AState)
  | raised (msg : String) (s : AState)
  | out

/-- Sequencing of resolver steps; an exception short-circuits. -/
def Res.bind {α β : Type} : Res α → (α → AState → Res β) → Res β
  | .ok a s, f => f a s
  | .raised m s, _ => .raised m s
  | .out, _ => .out

/-- Character-level replacement loop, fuelled by the input length. -/
def chReplaceGo (pat repl : List Char) : Nat → List Char → List Char
  | 0, l => l
  | _ + 1, [] => []
  | fuel + 1, c :: rest =>
    if pat.isPrefixOf (c :: rest) then
      repl ++ chReplaceGo pat repl fuel ((c :: rest).drop pat.length)
    else c :: chReplaceGo pat repl fuel rest

/-- Python str.replace: every occurrence of a nonempty pattern is
replaced. -/
def strReplace (s pat repl : String) : String :=
  if pat.isEmpty then s
  else ⟨chReplaceGo pat.data repl.data s.data.length s.data⟩

/-- The last dot-separated component of a qualified name (Python
name.split(".")[-1]). -/
def lastComponent (name : String) : String :=
  ⟨(name.data.reverse.takeWhile (fun c => c != '.')).reverse⟩

/-- Whether a type is the none type. -/
def MType.isNoneB : MType → Bool
  | .noneT => true
  | _ => false

/-- Whether a type is a union. -/
def MType.isUnionB : MType → Bool
  | .unionT _ => true
  | _ => false

/-- Whether a type is a class instance. -/
def MType.isInstanceB : MType → Bool
  | .inst _ _ _ _ => true
  | _ => false

mutual

/-- Modelled from the spec: flattened members of a union (mypy.types
.union_items is outside the verified source); any other type is a
one-element list. -/
def unionItems : MType → List MType
  | .unionT items => unionItemsList items
  | t => [t]

/-- Flattened members of a list of union members. -/
def unionItemsList : List MType → List MType
  | [] => []
  | t :: ts => unionItems t ++ unionItemsList ts

end

/-- Modelled from the spec: the union constructor (mypy.types.UnionType
.make_union is outside the verified source): two or more members make a
union, one member is returned itself, zero members give the uninhabited
type.  Flattening does not happen at construction during semantic
analysis. -/
def makeUnion (items : List MType) : MType :=
  if items.length > 1 then .unionT items
  else
    match items with
    | [x] => x
    | _ => .uninhabited false

/-- The type corresponding to Optional of t (make_optional_type): a bare
none stays none, a union is rebuilt from its flattened non-none members
plus one none member, anything else becomes a two-member union with
none. -/
def makeOptionalType (t : MType) : MType :=
  match t with
  | .noneT => .noneT
  | .unionT items =>
    let kept := (unionItemsList items).filter (fun item => !item.isNoneB)
    .unionT (kept ++ [.noneT])
  | other => .unionT [other, .noneT]

/-- Modelled from the spec: the well-known non-generic-by-default builtin
containers and their subscriptable replacements (mypy.nodes
.nongen_builtins is outside the verified source). -/
def nongenBuiltins : List (String × String) :=
  [("builtins.list", "typing.List"), ("builtins.dict", "typing.Dict"),
   ("builtins.set", "typing.Set"), ("builtins.frozenset", "typing.FrozenSet")]

/-- Replacement suggestion for a non-generic builtin, if the name is one. -/
def nongenLookup (n : String) : Option String :=
  (nongenBuiltins.find? (fun p => p.1 == n)).map (·.2)

/-- Modelled from the spec: quoting of a type string in diagnostics
(mypy.messages is the excluded diagnostic rendering layer). -/
def quoteTypeString (s : String) : String :=
  "\"" ++ s ++ "\""

/-- Modelled from the spec: bare rendering of a type for diagnostics
(mypy.messages.format_type_bare is the excluded rendering layer). -/
def formatTypeBare : MType → String
  | .inst info _ _ _ => info.name
  | .unbound n _ _ _ _ _ => n
  | _ => "<type>"

/-- Modelled from the spec: the missing-type-parameters diagnostic text
(mypy.message_registry is outside the verified source). -/
def bareGenericMsg (typeStr : String) : String :=
  "Missing type parameters for generic type " ++ typeStr

/-- Modelled from the spec: the implicit-generic-any diagnostic for the
well-known builtin containers (mypy.message_registry is outside the
verified source). -/
def implicitGenericAnyBuiltinMsg (alternative : String) : String :=
  "Implicit generic \"Any\". Use \"" ++ alternative ++
    "\" and specify generic parameters"

/-- Modelled from the spec: the raw-enum-value diagnostic text
(mypy.message_registry is outside the verified source). -/
def invalidTypeRawEnumValueMsg (base value : String) : String :=
  "Invalid type: try using Literal[" ++ base ++ "." ++ value ++ "] instead?"

/-- Message for subscripting a non-generic builtin
(no_subscript_builtin_alias). -/
def noSubscriptBuiltinAlias (name : String) (proposeAlt : Bool) : String :=
  let shortName := lastComponent name
  let msg := "\"" ++ shortName ++ "\" is not subscriptable"
  match nongenLookup name with
  | some replacement =>
    if proposeAlt then msg ++ ", use \"" ++ replacement ++ "\" instead" else msg
  | none => msg

/-- The string used for a type in the omitted-generics diagnostic: the raw
name for an unresolved reference, the bare rendering otherwise. -/
def typeStrForMsg : MType → String
  | .unbound n _ _ _ _ _ => n
  | t => formatTypeBare t

/-- The filler for omitted generic arguments (get_omitted_any): under the
strict policy it is an error-provenance unknown with a diagnostic — a
dedicated one for the well-known builtin containers — and under the
permissive policy a silent omitted-generics unknown. -/
def getOmittedAny (disallowAny : Bool) (typ : MType) (fullname : Option String)
    (unexpanded : Option MType) : MType × List String :=
  if disallowAny then
    match fullname.bind nongenLookup with
    | some alternative =>
      (.anyT .fromError none, [implicitGenericAnyBuiltinMsg alternative])
    | none =>
      let t := unexpanded.getD typ
      (.anyT .fromError none,
       [bareGenericMsg (quoteTypeString (typeStrForMsg t))])
  else (.anyT .fromOmittedGenerics none, [])

/-- Arity fixup of a malformed instance (fix_instance): zero supplied
arguments are padded to declared arity with the omitted-generics filler;
a nonzero wrong count is replaced by arity-many error fillers, a
diagnostic stating expected versus actual count is emitted, and the
instance is marked invalid. -/
def fixInstance (t : MType) (disallowAny : Bool) (useGenericError : Bool)
    (unexpanded : Option MType) : MType × List String :=
  match t with
  | .inst info args invalid lkv =>
    if args.length == 0 then
      let fullname := if useGenericError then none else some info.fullname
      let (anyType, msgs) :=
        getOmittedAny disallowAny (.inst info args invalid lkv) fullname unexpanded
      (.inst info (List.replicate info.typeVars.length anyType) invalid lkv, msgs)
    else
      let n := info.typeVars.length
      let sArgs :=
        if n == 0 then "no type arguments"
        else if n == 1 then "1 type argument"
        else toString n ++ " type arguments"
      let act := if toString args.length == "0" then "none" else toString args.length
      let msg := "\"" ++ info.name ++ "\" expects " ++ sArgs ++ ", but " ++
        act ++ " given"
      (.inst info (List.replicate n (.anyT .fromError none)) true lkv, [msg])
  | other => (other, [])

/-- Modelled from the spec: ordered argument positions of a parametrizable
type (mypy.types.get_typ_args is outside the verified source; the
specification asks the recursive transformation to cover every variant's
sub-expression positions, including nested generics and callables). -/
def getTypArgs : MType → List MType
  | .inst _ args _ _ => args
  | .unionT items => items
  | .tupleT items _ _ => items
  | .callable argTypes _ _ retType _ _ _ => argTypes ++ [retType]
  | .typeTypeT item => [item]
  | .starT typ => [typ]
  | .unbound _ args _ _ _ _ => args
  | .typeList items => items
  | .callableArg typ _ _ => [typ]
  | .placeholder _ args => args
  | _ => []

/-- Modelled from the spec: rebuild a parametrizable type with new
argument positions (mypy.types.set_typ_args is outside the verified
source); a non-parametrizable type is returned unchanged. -/
def setTypArgs (tp : MType) (newArgs : List MType) : MType :=
  match tp with
  | .inst info _ inv lkv => .inst info newArgs inv lkv
  | .unionT _ => .unionT newArgs
  | .tupleT _ fb impl => .tupleT newArgs fb impl
  | .callable _ kinds names _ fb tvs ell =>
    .callable newArgs.dropLast kinds names
      (newArgs.getLastD (.anyT .fromError none)) fb tvs ell
  | .typeTypeT _ => .typeTypeT ((newArgs.headD (.anyT .fromError none)))
  | .starT _ => .starT ((newArgs.headD (.anyT .fromError none)))
  | .unbound n _ opt eti se sf => .unbound n newArgs opt eti se sf
  | .typeList _ => .typeList newArgs
  | .callableArg _ an c => .callableArg ((newArgs.headD (.anyT .fromError none))) an c
  | .placeholder fn _ => .placeholder fn newArgs
  | other => other

/-- The formal name an argument position may denote: the name of an
unresolved reference or of a type-variable reference, else nothing. -/
def tvarNameOf : MType → Option String
  | .unbound n _ _ _ _ _ => some n
  | .typeVarT d => some d.name
  | _ => none

/-- Direct substitution hit at one argument position: when the position is
a reference named in vars, the matching substitution. -/
def substHit (vars : List String) (subs : List MType) (arg : MType) :
    Option MType :=
  match tvarNameOf arg with
  | some tvar =>
    if vars.contains tvar then
      some ((subs.get? (vars.indexOf tvar)).getD (.anyT .fromError none))
    else none
  | none => none

mutual

/-- Substitution of alias formals (replace_alias_tvars): every argument
position whose type is a reference named in vars is replaced by the
matching substitution; other positions recurse.  The node itself is never
replaced, only its argument positions. -/
def replaceAliasTvars (vars : List String) (subs : List MType) : MType → MType
  | .inst info args inv lkv =>
    .inst info (replaceAliasTvarsList vars subs args) inv lkv
  | .unionT items => .unionT (replaceAliasTvarsList vars subs items)
  | .tupleT items fb impl =>
    .tupleT (replaceAliasTvarsList vars subs items) fb impl
  | .callable argTypes kinds names retType fb tvs ell =>
    .callable (replaceAliasTvarsList vars subs argTypes) kinds names
      (match substHit vars subs retType with
       | some r => r
       | none => replaceAliasTvars vars subs retType) fb tvs ell
  | .typeTypeT item =>
    .typeTypeT
      (match substHit vars subs item with
       | some r => r
       | none => replaceAliasTvars vars subs item)
  | .starT typ =>
    .starT
      (match substHit vars subs typ with
       | some r => r
       | none => replaceAliasTvars vars subs typ)
  | .unbound n args opt eti se sf =>
    .unbound n (replaceAliasTvarsList vars subs args) opt eti se sf
  | .typeList items => .typeList (replaceAliasTvarsList vars subs items)
  | .callableArg typ an c =>
    .callableArg
      (match substHit vars subs typ with
       | some r => r
       | none => replaceAliasTvars vars subs typ) an c
  | .placeholder fn args => .placeholder fn (replaceAliasTvarsList vars subs args)
  | other => other

/-- Substitution applied to each element of an argument-position list. -/
def replaceAliasTvarsList (vars : List String) (subs : List MType) :
    List MType → List MType
  | [] => []
  | a :: rest =>
    (match substHit vars subs a with
     | some r => r
     | none => replaceAliasTvars vars subs a) :: replaceAliasTvarsList vars subs rest

end

/-- One argument position of the substitution, as a standalone step. -/
def replaceAliasTvarsStep (vars : List String) (subs : List MType) (arg : MType) :
    MType :=
  match substHit vars subs arg with
  | some r => r
  | none => replaceAliasTvars vars subs arg

/-- Fill alias formals with the unknown type (set_any_tvars): error
provenance when recovering from an error or under the strict policy, the
omitted-generics provenance otherwise; the strict policy also emits the
missing-type-parameters diagnostic. -/
def setAnyTvars (tp : MType) (vars : List String) (fromError disallowAny : Bool)
    (unexpanded : Option MType) : MType × List String :=
  let typeOfAny :=
    if fromError || disallowAny then TypeOfAny.fromError
    else TypeOfAny.fromOmittedGenerics
  let msgs :=
    if disallowAny then
      [bareGenericMsg (quoteTypeString (typeStrForMsg (unexpanded.getD tp)))]
    else []
  (replaceAliasTvars vars (List.replicate vars.length (.anyT typeOfAny none)) tp,
   msgs)

/-- The bad-arity diagnostic of alias expansion. -/
def badAliasArityMsg (expected given : Nat) : String :=
  "Bad number of arguments for type alias, expected: " ++ toString expected ++
    ", given: " ++ toString given

/-- Alias expansion (expand_type_alias): the four cases in source order —
formals with no actuals become implicit unknowns; no formals and no
actuals return the target (a bare-declared alias strips instance
arguments); no formals with actuals on a bare-declared instance target
applies them directly; matching counts substitute, with the FlexibleAlias
wrapper unwrapping to its last argument; a mismatched nonzero count is
diagnosed and every formal becomes an error unknown.  The error outcome is
the Python assertion in the bare-declared case. -/
def expandTypeAlias (target : MType) (aliasTvars : List String)
    (args : List MType) (noArgs : Bool) (disallowAny : Bool)
    (unexpanded : Option MType) : Except String (MType × List String) :=
  let expLen := aliasTvars.length
  let actLen := args.length
  if expLen > 0 && actLen == 0 then
    .ok (setAnyTvars target aliasTvars false disallowAny unexpanded)
  else if expLen == 0 && actLen == 0 then
    if noArgs then
      match target with
      | .inst info _ _ _ => .ok (.inst info [] false none, [])
      | _ => .error "AssertionError: bare alias target is not an instance"
    else .ok (target, [])
  else if expLen == 0 && actLen > 0 && target.isInstanceB && noArgs then
    match target with
    | .inst info _ _ _ => .ok (.inst info args false none, [])
    | _ => .error "AssertionError: unreachable"
  else if actLen != expLen then
    let (typ, msgs) := setAnyTvars target aliasTvars true false none
    .ok (typ, badAliasArityMsg expLen actLen :: msgs)
  else
    let typ := replaceAliasTvars aliasTvars args target
    let typ :=
      match typ with
      | .inst info targs inv lkv =>
        if info.fullname == "mypy_extensions.FlexibleAlias" then
          targs.getLastD (.inst info targs inv lkv)
        else .inst info targs inv lkv
      | other => other
    .ok (typ, [])

/-- Unique elements in order of appearance, with a seen accumulator. -/
def removeDupsGo [BEq α] : List α → List α → List α
  | [], _ => []
  | t :: ts, seen =>
    if seen.contains t then removeDupsGo ts seen
    else t :: removeDupsGo ts (t :: seen)

/-- Unique elements in order of appearance (remove_dups). -/
def removeDups [BEq α] (tvars : List α) : List α :=
  removeDupsGo tvars []

/-- Flatten and deduplicate collected type-variable lists (flatten_tvars). -/
def flattenTvars [BEq α] (ll : List (List α)) : List α :=
  removeDups ll.flatten

mutual

/-- Modelled from the spec: type-variable occurrences of a type
(mypy.types.get_type_vars is outside the verified source); collects every
type-variable reference in the structure. -/
def getTypeVars : MType → List MType
  | .typeVarT d => [.typeVarT d]
  | .unbound _ args _ _ _ _ => getTypeVarsList args
  | .inst _ args _ _ => getTypeVarsList args
  | .typeList items => getTypeVarsList items
  | .callableArg typ _ _ => getTypeVars typ
  | .callable argTypes _ _ retType _ _ _ =>
    getTypeVarsList argTypes ++ getTypeVars retType
  | .tupleT items _ _ => getTypeVarsList items
  | .typedDict items _ _ => getTypeVarsFields items
  | .starT typ => getTypeVars typ
  | .unionT items => getTypeVarsList items
  | .typeTypeT item => getTypeVars item
  | .placeholder _ args => getTypeVarsList args
  | _ => []

/-- Type-variable occurrences of a list of types. -/
def getTypeVarsList : List MType → List MType
  | [] => []
  | t :: ts => getTypeVars t ++ getTypeVarsList ts

/-- Type-variable occurrences of named field types. -/
def getTypeVarsFields : List (String × MType) → List MType
  | [] => []
  | (_, t) :: ts => getTypeVars t ++ getTypeVarsFields ts

end

mutual

/-- Modelled from the spec: normalization of the type-of-type constructor
(mypy.types.TypeType.make_normalized is outside the verified source): it
distributes over a union item. -/
def typeTypeMakeNormalized : MType → MType
  | .unionT items => makeUnion (typeTypeMakeNormalizedList items)
  | item => .typeTypeT item

/-- Normalization mapped over union members. -/
def typeTypeMakeNormalizedList : List MType → List MType
  | [] => []
  | x :: xs => typeTypeMakeNormalized x :: typeTypeMakeNormalizedList xs

end

/-- Whether an unresolved reference with these arguments looks like a
callable form (_seems_like_callable). -/
def seemsLikeCallable : List MType → Bool
  | [] => false
  | a :: _ =>
    match a with
    | .ellipsisT => true
    | .typeList _ => true
    | _ => false

mutual

/-- The Type-Variable Collector (TypeVariableQuery): an unresolved
reference that resolves to an unbound TypeVarExpr is collected; otherwise
callable-looking references are skipped when callables are excluded, the
literal special form never quantifies, and other nodes collect from their
sub-expression positions (the default traversal of the excluded TypeQuery
base class is modelled from the spec). -/
def tvQuery (ctx : Ctx) (scope : TVarScope) (inclC : Bool) :
    MType → List (String × TVExpr)
  | .unbound name args opt eti se sf =>
    match ctx.env.lookupQualified name with
    | some nd =>
      match nd.node with
      | some (.typeVarExprNode e) =>
        if (scope.getBinding (SymTableNode.fullname nd)).isNone then [(name, e)]
        else if !inclC && seemsLikeCallable args then []
        else flattenTvars (tvQueryList ctx scope inclC args)
      | _ =>
        if !inclC && seemsLikeCallable args then []
        else if SymTableNode.fullname nd == some "typing_extensions.Literal" ||
            SymTableNode.fullname nd == some "typing.Literal" then []
        else flattenTvars (tvQueryList ctx scope inclC args)
    | none =>
      if !inclC && seemsLikeCallable args then []
      else flattenTvars (tvQueryList ctx scope inclC args)
  | .callable argTypes _ _ retType _ _ _ =>
    if inclC then
      flattenTvars (tvQueryList ctx scope inclC argTypes ++
        [tvQuery ctx scope inclC retType])
    else []
  | .inst _ args _ _ => flattenTvars (tvQueryList ctx scope inclC args)
  | .typeList items => flattenTvars (tvQueryList ctx scope inclC items)
  | .callableArg typ _ _ => tvQuery ctx scope inclC typ
  | .tupleT items _ _ => flattenTvars (tvQueryList ctx scope inclC items)
  | .typedDict items _ _ => flattenTvars (tvQueryFields ctx scope inclC items)
  | .starT typ => tvQuery ctx scope inclC typ
  | .unionT items => flattenTvars (tvQueryList ctx scope inclC items)
  | .typeTypeT item => tvQuery ctx scope inclC item
  | .placeholder _ args => flattenTvars (tvQueryList ctx scope inclC args)
  | _ => []

/-- Collector results of each element of a list of types. -/
def tvQueryList (ctx : Ctx) (scope : TVarScope) (inclC : Bool) :
    List MType → List (List (String × TVExpr))
  | [] => []
  | t :: ts => tvQuery ctx scope inclC t :: tvQueryList ctx scope inclC ts

/-- Collector results of each named field type. -/
def tvQueryFields (ctx : Ctx) (scope : TVarScope) (inclC : Bool) :
    List (String × MType) → List (List (String × TVExpr))
  | [] => []
  | (_, t) :: ts => tvQuery ctx scope inclC t :: tvQueryFields ctx scope inclC ts

end

/-- Modelled from the spec: the shared argument-name validator
(mypy.nodes.check_arg_names is outside the verified source): reports the
first duplicate explicit name, if any. -/
def checkArgNamesGo (names : List (Option String)) (seen : List String)
    (description : String) : List String :=
  match names with
  | [] => []
  | none :: rest => checkArgNamesGo rest seen description
  | some n :: rest =>
    if seen.contains n then
      ["Duplicate argument \"" ++ n ++ "\" in " ++ description]
    else checkArgNamesGo rest (n :: seen) description

/-- Entry point of the argument-name validator. -/
def checkArgNames (names : List (Option String)) (description : String) :
    List String :=
  checkArgNamesGo names [] description

/-- Modelled from the spec: the shared argument-kind validator
(mypy.nodes.check_arg_kinds is outside the verified source): star and
double-star arguments appear at most once, in a valid relative order with
the positional, defaulted and named kinds; the first violation is
reported. -/
def checkArgKindsGo : List Nat → Bool → Bool → Bool → Bool → List String
  | [], _, _, _, _ => []
  | kind :: rest, isVarArg, isKwArg, seenNamed, seenOpt =>
    if kind == ARG_POS then
      if isVarArg || isKwArg || seenNamed || seenOpt then
        ["Required positional args may not appear after default, named or var args"]
      else checkArgKindsGo rest isVarArg isKwArg seenNamed seenOpt
    else if kind == ARG_OPT then
      if isVarArg || isKwArg || seenNamed then
        ["Positional default args may not appear after named or var args"]
      else checkArgKindsGo rest isVarArg isKwArg seenNamed true
    else if kind == ARG_STAR then
      if isVarArg || isKwArg || seenNamed then
        ["Var args may not appear after named or var args"]
      else checkArgKindsGo rest true isKwArg seenNamed seenOpt
    else if kind == ARG_NAMED || kind == ARG_NAMED_OPT then
      if isKwArg then ["A **kwargs argument must be the last argument"]
      else checkArgKindsGo rest isVarArg isKwArg true seenOpt
    else if kind == ARG_STAR2 then
      if isKwArg then ["You may only have one **kwargs argument"]
      else checkArgKindsGo rest isVarArg true seenNamed seenOpt
    else checkArgKindsGo rest isVarArg isKwArg seenNamed seenOpt

/-- Entry point of the argument-kind validator. -/
def checkArgKinds (kinds : List Nat) : List String :=
  checkArgKindsGo kinds false false false false

/-- The argument kind named by a constructor-tagged entry
(ARG_KINDS_BY_CONSTRUCTOR). -/
def kindByConstructor : Option String → Option Nat
  | some "mypy_extensions.Arg" => some ARG_POS
  | some "mypy_extensions.DefaultArg" => some ARG_OPT
  | some "mypy_extensions.NamedArg" => some ARG_NAMED
  | some "mypy_extensions.DefaultNamedArg" => some ARG_NAMED_OPT
  | some "mypy_extensions.VarArg" => some ARG_STAR
  | some "mypy_extensions.KwArg" => some ARG_STAR2
  | _ => none

/-- The cyclic-definition diagnostic (cannot_resolve_type). -/
def cannotResolveMsg (name : String) : String :=
  "Cannot resolve name " ++ "\"" ++ name ++ "\"" ++
    " (possible cyclic definition)"

/-- Python repr of a raw literal value, rendered without apostrophes
(string values are shown in double quotes). -/
def reprLit : Option LitVal → String
  | none => "None"
  | some (.i n) => toString n
  | some (.s v) => "\"" ++ v ++ "\""
  | some (.b true) => "True"
  | some (.b false) => "False"

/-- Increment the nesting counter. -/
def bumpNest (s : AState) : AState :=
  { s with nestingLevel := s.nestingLevel + 1 }

/-- Decrement the nesting counter. -/
def dropNest (s : AState) : AState :=
  { s with nestingLevel := s.nestingLevel - 1 }

/-- Fully qualified class lookup (named_type): the symbol must exist and
hold a class, otherwise the Python lookup or assertion raises; omitted or
empty arguments are padded with the special-form unknown to the class's
declared arity. -/
def namedType (ctx : Ctx) (s : AState) (fullyQualifiedName : String)
    (args : Option (List MType)) : Res MType :=
  match ctx.env.lookupFqn fullyQualifiedName with
  | none => .raised ("KeyError: " ++ fullyQualifiedName) s
  | some nd =>
    match nd.node with
    | some (.typeInfoNode info) =>
      let defaultArgs : List MType :=
        List.replicate info.typeVars.length (.anyT .specialForm none)
      let argList :=
        match args with
        | some l => if l.isEmpty then defaultArgs else l
        | none => defaultArgs
      .ok (.inst info argList false none) s
    | _ => .raised "AssertionError: named_type expected a TypeInfo" s

/-- Class lookup normalizing the historical string aliases
(named_type_with_normalized_str): bytes on Python 2 and unicode on
Python 3 both mean str. -/
def namedTypeWithNormalizedStr (ctx : Ctx) (s : AState)
    (fullyQualifiedName : String) : Res MType :=
  let pv := ctx.cfg.options.pythonVersionMajor
  let fqn1 :=
    if pv == 2 && fullyQualifiedName == "builtins.bytes" then "builtins.str"
    else fullyQualifiedName
  let fqn2 := if pv >= 3 && fqn1 == "builtins.unicode" then "builtins.str" else fqn1
  namedType ctx s fqn2 none

/-- The tuple canonical type with the variable-length builtin tuple
fallback (tuple_type). -/
def tupleTypeHelper (ctx : Ctx) (s : AState) (items : List MType) : Res MType :=
  (namedType ctx s "builtins.tuple" (some [.anyT .specialForm none])).bind
    fun fb s2 => .ok (.tupleT items fb false) s2

/-- The omitted-generics filler as the analyzer method computes it
(TypeAnalyser.get_omitted_any): strict only outside trusted interface
declarations. -/
def mGetOmittedAny (ctx : Ctx) (typ : MType) (fullname : Option String) :
    MType × List String :=
  getOmittedAny (!ctx.cfg.isTypeshedStub && ctx.cfg.options.disallowAnyGenerics)
    typ fullname none

/-- Unique collected type variables by first occurrence of the name
(the accumulation loop of infer_type_variables). -/
def collectUnique : List (String × TVExpr) → List String → List (String × TVExpr)
  | [], _ => []
  | (n, e) :: rest, seen =>
    if seen.contains n then collectUnique rest seen
    else (n, e) :: collectUnique rest (n :: seen)

/-- The Type-Variable Collector entry point (infer_type_variables): formal
argument types are walked fully, the return type without entering nested
callables, and each distinct variable name is kept at first occurrence. -/
def inferTypeVariables (ctx : Ctx) (scope : TVarScope) (argTypes : List MType)
    (retType : MType) : List (String × TVExpr) :=
  collectUnique
    ((tvQueryList ctx scope true argTypes).flatten ++
      tvQuery ctx scope false retType) []

/-- Whether a name is a type variable already bound in scope
(is_defined_type_var). -/
def isDefinedTypeVar (ctx : Ctx) (scope : TVarScope) (tvar : String) : Bool :=
  match ctx.env.lookupQualified tvar with
  | none => false
  | some nd => (scope.getBinding nd.fullname).isSome

/-- Binding loop for a signature's explicitly declared type variables: each
name must look up to a TypeVarExpr or the Python assertions raise. -/
def bindDeclaredVars (ctx : Ctx) (s : AState) : List TypeVarDefL → Res Unit
  | [] => .ok () s
  | v :: rest =>
    match ctx.env.lookupQualified v.name with
    | none =>
      .raised
        "AssertionError: Binding for function type variable not found within function" s
    | some nd =>
      match nd.node with
      | some (.typeVarExprNode e) =>
        let (scope2, _) := s.tvarScope.bindNew v.name e
        bindDeclaredVars ctx { s with tvarScope := scope2 } rest
      | _ => .raised "AssertionError: expected a TypeVarExpr" s

/-- Binding loop for inferred type variables: an outer-class binding is
diagnosed, the variable is bound, and the fresh binding is read back (the
Python assertion that the read-back succeeds). -/
def bindInferred (ctx : Ctx) (s : AState) :
    List (String × TVExpr) → Res (List TypeVarDefL)
  | [] => .ok [] s
  | (name, tvar) :: rest =>
    let s1 :=
      if !(s.tvarScope.allowBinding tvar.fullname) then
        addMsg s ("Type variable \"" ++ name ++ "\" is bound by an outer class")
      else s
    let (scope2, _) := s1.tvarScope.bindNew name tvar
    let s2 := { s1 with tvarScope := scope2 }
    match s2.tvarScope.getBindingByName tvar.fullname with
    | none => .raised "AssertionError: binding is not None" s2
    | some binding =>
      (bindInferred ctx s2 rest).bind fun defs s3 => .ok (binding :: defs) s3

/-- Bind a callable's own type variables into the current scope frame
(bind_function_type_variables): declared variables are bound as given;
otherwise the Collector infers them, names already defined in scope are
skipped, and the fresh bindings are returned. -/
def bindFunctionTypeVariables (ctx : Ctx) (s : AState) (argTypes : List MType)
    (retType : MType) (declared : List TypeVarDefL) : Res (List TypeVarDefL) :=
  if !declared.isEmpty then
    (bindDeclaredVars ctx s declared).bind fun _ s2 => .ok declared s2
  else
    let typevars := inferTypeVariables ctx s.tvarScope argTypes retType
    let typevars :=
      typevars.filter (fun p => !(isDefinedTypeVar ctx s.tvarScope p.1))
    bindInferred ctx s typevars

/-- The special-form vocabulary cases, in the source's elif order
(try_analyze_special_unbound_type). -/
inductive SForm where
  | noneF
  | anyF
  | finalF
  | tupleF
  | unionF
  | optionalF
  | callableF
  | typeF
  | classVarF
  | noReturnF
  | literalF
  | annotatedF
  | notSpecial

/-- The special-form dispatch on the resolved full name, encoding the
source's elif chain of name comparisons. -/
def specialKind (fullname : String) : SForm :=
  if fullname == "builtins.None" then .noneF
  else if fullname == "typing.Any" || fullname == "builtins.Any" then .anyF
  else if fullname == "typing.Final" || fullname == "typing_extensions.Final" then .finalF
  else if fullname == "typing.Tuple" then .tupleF
  else if fullname == "typing.Union" then .unionF
  else if fullname == "typing.Optional" then .optionalF
  else if fullname == "typing.Callable" then .callableF
  else if fullname == "typing.Type" then .typeF
  else if fullname == "typing.ClassVar" then .classVarF
  else if fullname == "mypy_extensions.NoReturn" || fullname == "typing.NoReturn" then .noReturnF
  else if fullname == "typing_extensions.Literal" || fullname == "typing.Literal" then .literalF
  else if fullname == "typing_extensions.Annotated" then .annotatedF
  else .notSpecial

/-- The tuple-of special case scrutinee (the Python test
len(t.args) == 2 and isinstance(t.args[1], EllipsisType)): the first
argument when the argument list is exactly a pair ending in ellipsis. -/
def tupleEllipsisHead : List MType → Option MType
  | [a0, .ellipsisT] => some a0
  | _ => none

mutual

/-- The structural dispatch of the resolver (Type.accept over the
TypeAnalyser visitor): unresolved references go through name resolution,
already-canonical leaves return themselves, bracketed lists, callable
argument constructors and stray ellipses are diagnosed errors, composite
variants re-resolve their members, and the partial-type case is the
internal assertion. -/
def visitType (ctx : Ctx) : Nat → AState → MType → Res MType
  | 0, _, _ => .out
  | fuel + 1, s, t =>
    match t with
    | .unbound name args opt eti se sf =>
      visitUnboundType ctx fuel s name args opt eti se sf false
    | .anyT p mi => .ok (.anyT p mi) s
    | .noneT => .ok .noneT s
    | .uninhabited nr => .ok (.uninhabited nr) s
    | .deleted => .ok .deleted s
    | .typeList items =>
      let s1 := addMsg s "Bracketed expression \"[...]\" is not valid as a type"
      let s2 := addNote s1 "Did you mean \"List[...]\"?"
      .ok (.anyT .fromError none) s2
    | .callableArg typ an c => .ok (.anyT .fromError none) (addMsg s "Invalid type")
    | .inst info args inv lkv => .ok (.inst info args inv lkv) s
    | .typeVarT d => .ok (.typeVarT d) s
    | .callable argTypes kinds names retType fb tvs ell =>
      visitCallableType ctx fuel s argTypes kinds names retType fb tvs ell true
    | .tupleT items fb impl => visitTupleType ctx fuel s items fb impl
    | .typedDict items req fb =>
      (visitTypedDictFields ctx fuel s items).bind fun newItems s2 =>
        .ok (.typedDict newItems req fb) s2
    | .rawExpr base litVal noteMsg =>
      if ctx.cfg.reportInvalidTypes then
        let msg :=
          if base == "builtins.int" || base == "builtins.bool" then
            "Invalid type: try using Literal[" ++ reprLit litVal ++ "] instead?"
          else if base == "builtins.float" || base == "builtins.complex" then
            "Invalid type: " ++ strReplace base "builtins." "" ++
              " literals cannot be used as a type"
          else "Invalid type comment or annotation"
        let s1 := addMsg s msg
        let s2 := match noteMsg with | some n => addNote s1 n | none => s1
        .ok (.anyT .fromError none) s2
      else .ok (.anyT .fromError none) s
    | .literalT v fb => .ok (.literalT v fb) s
    | .starT typ =>
      (analType ctx fuel s typ true).bind fun r s2 => .ok (.starT r) s2
    | .unionT items =>
      (analArray ctx fuel s items true).bind fun rs s2 => .ok (.unionT rs) s2
    | .partl => .raised "Internal error: Unexpected partial type" s
    | .ellipsisT => .ok (.anyT .fromError none) (addMsg s "Unexpected \"...\"")
    | .typeTypeT item =>
      (analType ctx fuel s item true).bind fun r s2 =>
        .ok (typeTypeMakeNormalized r) s2
    | .placeholder fn args => visitPlaceholderType ctx fuel s fn args

termination_by structural a1 a2 a3 => a1
/-- Resolution of an unresolved reference (visit_unbound_type): the
nonoptional resolution, then the nullable-suffix marker wraps the result
in the optional construction. -/
def visitUnboundType (ctx : Ctx) : Nat → AState → String → List MType → Bool →
    Bool → Option String → Option String → Bool → Res MType
  | 0, _, _, _, _, _, _, _, _ => .out
  | fuel + 1, s, name, args, opt, eti, se, sf, definingLiteral =>
    (visitUnboundTypeNonoptional ctx fuel s name args opt eti se sf
        definingLiteral).bind fun typ s2 =>
      if opt then .ok (makeOptionalType typ) s2 else .ok typ s2

termination_by structural a1 a2 a3 a4 a5 a6 a7 a8 a9 => a1
/-- Name resolution of an unresolved reference
(visit_unbound_type_nonoptional): the placeholder forward-reference
protocol, the missing-symbol silent unknown, the plugin hook shortcut, the
non-generic-builtin diagnostic, bound type variables, the special-form
vocabulary, alias expansion, classes, and the residual non-type cases, in
source order. -/
def visitUnboundTypeNonoptional (ctx : Ctx) : Nat → AState → String →
    List MType → Bool → Bool → Option String → Option String → Bool → Res MType
  | 0, _, _, _, _, _, _, _, _ => .out
  | fuel + 1, s, name, args, opt, eti, se, sf, definingLiteral =>
    match ctx.env.lookupQualified name with
    | none => .ok (.anyT .specialForm none) s
    | some sym =>
      match sym.node with
      | some (.placeholderNode phFull becomes) =>
        if becomes then
          if ctx.env.finalIteration then
            .ok (.anyT .fromError none) (addMsg s (cannotResolveMsg name))
          else
            let s1 :=
              if ctx.cfg.allowPlaceholder then { s with deferred := true }
              else { s with incompleteRef := true }
            (analArray ctx fuel s1 args true).bind fun ts s2 =>
              .ok (.placeholder (some phFull) ts) s2
        else
          if ctx.env.finalIteration then
            .ok (.anyT .fromError none) (addMsg s (cannotResolveMsg name))
          else .ok (.anyT .specialForm none) { s with incompleteRef := true }
      | none =>
        .ok (.anyT .specialForm none)
          (addMsg s ("Internal error (node is None, kind=" ++ toString sym.kind ++ ")"))
      | some node =>
        let fullname := node.fullname
        match ctx.env.typeAnalyzeHook fullname with
        | some hook => .ok (hook (.unbound name args opt eti se sf)) s
        | none =>
          let s1 :=
            if (nongenLookup fullname).isSome && !args.isEmpty &&
                !ctx.cfg.allowUnnormalized then
              addMsg s (noSubscriptBuiltinAlias fullname (!ctx.cfg.definingAlias))
            else s
          let tvarDef := s1.tvarScope.getBinding sym.fullname
          match node, tvarDef with
          | .typeVarExprNode e, some d =>
            if ctx.cfg.definingAlias then
              .ok (.anyT .fromError none)
                (addMsg s1 ("Cannot use bound type variable \"" ++ name ++
                  "\" to define generic alias"))
            else
              let s2 :=
                if args.length > 0 then
                  addMsg s1 ("Type variable \"" ++ name ++ "\" used with arguments")
                else s1
              .ok (.typeVarT d) s2
          | _, _ =>
            (tryAnalyzeSpecial ctx fuel s1 (.unbound name args opt eti se sf)
                name args eti fullname).bind fun special s2 =>
              match special with
              | some typ => .ok typ s2
              | none =>
                match node with
                | .typeAliasNode aliasFn target allVars noArgs =>
                  let s3 :=
                    { s2 with aliasesUsed :=
                        if s2.aliasesUsed.contains fullname then s2.aliasesUsed
                        else fullname :: s2.aliasesUsed }
                  (analArray ctx fuel s3 args true).bind fun anArgs s4 =>
                    let disallowAny :=
                      ctx.cfg.options.disallowAnyGenerics && !ctx.cfg.isTypeshedStub
                    match expandTypeAlias target allVars anArgs noArgs disallowAny
                        (some (.unbound name args opt eti se sf)) with
                    | .error m => .raised m s4
                    | .ok (res, msgs) =>
                      let s5 := addMsgs s4 msgs
                      match res with
                      | .inst info iargs inv lkv =>
                        if iargs.length != info.typeVars.length &&
                            !ctx.cfg.definingAlias then
                          let (fixed, fmsgs) :=
                            fixInstance (.inst info iargs inv lkv) disallowAny true
                              (some (.unbound name args opt eti se sf))
                          .ok fixed (addMsgs s5 fmsgs)
                        else .ok (.inst info iargs inv lkv) s5
                      | other => .ok other s5
                | .typeInfoNode info => analyzeTypeWithTypeInfo ctx fuel s2 info args
                | _ =>
                  analyzeUnboundWithoutTypeInfo ctx fuel s2 name args opt eti se sf
                    sym definingLiteral

termination_by structural a1 a2 a3 a4 a5 a6 a7 a8 a9 => a1
/-- The special-form vocabulary (try_analyze_special_unbound_type): none,
the explicit unknown, the misused final qualifier, tuple-of, union-of,
nullable-wrapper, callable-signature, type-of-type, the class-variable
qualifier, never, literal-of and annotated-with-metadata; any other name
is not special. -/
def tryAnalyzeSpecial (ctx : Ctx) : Nat → AState → MType → String →
    List MType → Bool → String → Res (Option MType)
  | 0, _, _, _, _, _, _ => .out
  | fuel + 1, s, t, name, args, eti, fullname =>
    match specialKind fullname with
    | .noneF => .ok (some .noneT) s
    | .anyF => .ok (some (.anyT .explicit none)) s
    | .finalF =>
      .ok (some (.anyT .fromError none))
        (addMsg s "Final can be only used as an outermost qualifier in a variable annotation")
    | .tupleF =>
      let missing : Bool :=
        match ctx.env.lookupFqnOrNone "builtins.tuple" with
        | none => true
        | some sym =>
          match sym.node with
          | some (.placeholderNode _ _) => true
          | _ => false
      if missing then
        let s2 :=
          if ctx.env.isIncompleteNamespace "builtins" then
            { s with incompleteRef := true }
          else addMsg s "Name \"tuple\" is not defined"
        .ok (some (.anyT .specialForm none)) s2
      else if args.length == 0 && !eti then
        let (anyType, msgs) := mGetOmittedAny ctx t none
        (namedType ctx (addMsgs s msgs) "builtins.tuple" (some [anyType])).bind
          fun i s2 => .ok (some i) s2
      else
        match tupleEllipsisHead args with
        | some a0 =>
          (analType ctx fuel s a0 true).bind fun item s2 =>
            (namedType ctx s2 "builtins.tuple" (some [item])).bind fun i s3 =>
              .ok (some i) s3
        | none =>
          (analArray ctx fuel s args true).bind fun items s2 =>
            (tupleTypeHelper ctx s2 items).bind fun tt s3 => .ok (some tt) s3
    | .unionF =>
      (analArray ctx fuel s args true).bind fun items s2 =>
        .ok (some (makeUnion items)) s2
    | .optionalF =>
      if args.length != 1 then
        .ok (some (.anyT .fromError none))
          (addMsg s "Optional[...] must have exactly one type argument")
      else
        (analType ctx fuel s (args.headD .noneT) true).bind fun item s2 =>
          .ok (some (makeOptionalType item)) s2
    | .callableF =>
      (analyzeCallableType ctx fuel s t name args).bind fun r s2 => .ok (some r) s2
    | .typeF =>
      if args.length == 0 then
        let (anyType, msgs) := mGetOmittedAny ctx t none
        .ok (some (.typeTypeT anyType)) (addMsgs s msgs)
      else
        let s2 :=
          if args.length != 1 then
            addMsg s "Type[...] must have exactly one type argument"
          else s
        (analType ctx fuel s2 (args.headD .noneT) true).bind fun item s3 =>
          .ok (some (typeTypeMakeNormalized item)) s3
    | .classVarF =>
      let s1 :=
        if s.nestingLevel > 0 then
          addMsg s "Invalid type: ClassVar nested inside other type"
        else s
      if args.length == 0 then .ok (some (.anyT .fromOmittedGenerics none)) s1
      else if args.length != 1 then
        .ok (some (.anyT .fromError none))
          (addMsg s1 "ClassVar[...] must have at most one type argument")
      else
        (analType ctx fuel s1 (args.headD .noneT) true).bind fun item s2 =>
          if (match item with | .typeVarT _ => true | _ => false) ||
              !(getTypeVars item).isEmpty then
            .ok (some (.anyT .fromError none))
              (addMsg s2 "Invalid type: ClassVar cannot be generic")
          else .ok (some item) s2
    | .noReturnF => .ok (some (.uninhabited true)) s
    | .literalF =>
      (analyzeLiteralType ctx fuel s args).bind fun r s2 => .ok (some r) s2
    | .annotatedF =>
      if args.length < 2 then
        .ok (some (.anyT .fromError none))
          (addMsg s "Annotated[...] must have exactly one type argument and at least one annotation")
      else
        (analType ctx fuel s (args.headD .noneT) true).bind fun item s2 =>
          .ok (some item) s2
    | .notSpecial => .ok none s

termination_by structural a1 a2 a3 a4 a5 a6 a7 => a1
/-- Class reference resolution (analyze_type_with_type_info): the builtin
variable-length tuple class with arguments becomes a tuple type, otherwise
an instance is built, arity-fixed when the count disagrees outside alias
definitions, and a declared tuple or typed-dict base re-resolves its
member types over the instance as fallback. -/
def analyzeTypeWithTypeInfo (ctx : Ctx) : Nat → AState → TypeInfo →
    List MType → Res MType
  | 0, _, _, _ => .out
  | fuel + 1, s, info, args =>
    if args.length > 0 && info.fullname == "builtins.tuple" then
      let fallback := MType.inst info [.anyT .specialForm none] false none
      (analArray ctx fuel s args true).bind fun items s2 =>
        .ok (.tupleT items fallback false) s2
    else
      (analArray ctx fuel s args true).bind fun anArgs s2 =>
        let instance0 := MType.inst info anArgs false none
        let fixed :=
          if anArgs.length != info.typeVars.length && !ctx.cfg.definingAlias then
            fixInstance instance0
              (ctx.cfg.options.disallowAnyGenerics && !ctx.cfg.isTypeshedStub)
              false none
          else (instance0, [])
        let inst1 := fixed.1
        let s3 := addMsgs s2 fixed.2
        match info.tupleType with
        | some tup =>
          if !args.isEmpty then
            .ok (.anyT .fromError none) (addMsg s3 "Generic tuple types not supported")
          else
            match tup with
            | .tupleT titems tfb timpl =>
              (analArray ctx fuel s3 titems true).bind fun nitems s4 =>
                .ok (.tupleT nitems inst1 timpl) s4
            | _ => .raised "AssertionError: tuple_type is not a TupleType" s3
        | none =>
          match info.typedDictType with
          | some td =>
            if !args.isEmpty then
              .ok (.anyT .fromError none)
                (addMsg s3 "Generic TypedDict types not supported")
            else
              match td with
              | .typedDict fields req tfb =>
                (analArray ctx fuel s3 (fields.map (·.2)) true).bind fun nvals s4 =>
                  .ok (.typedDict ((fields.map (·.1)).zip nvals) req inst1) s4
              | _ => .raised "AssertionError: typeddict_type is not a TypedDictType" s3
          | none => .ok inst1 s3

termination_by structural a1 a2 a3 a4 => a1
/-- Residual resolution of a reference that is not a class
(analyze_unbound_type_without_type_info): an Any-typed variable aliases
the unknown, an unbound type variable is tolerated where permitted, an
enum member is a literal in literal context and an error otherwise, and
anything else re-resolves its arguments and is diagnosed as not valid as
a type. -/
def analyzeUnboundWithoutTypeInfo (ctx : Ctx) : Nat → AState → String →
    List MType → Bool → Bool → Option String → Option String → SymTableNode →
    Bool → Res MType
  | 0, _, _, _, _, _, _, _, _, _ => .out
  | fuel + 1, s, name, args, opt, eti, se, sf, sym, definingLiteral =>
    match sym.node with
    | none => .raised "AssertionError: sym.node is None" s
    | some node =>
      let nm := node.fullname
      match node with
      | .varNode _ _ (some (.anyT p mi)) _ => .ok (.anyT .fromUnimportedType mi) s
      | _ =>
        let unboundTvar :=
          (match node with | .typeVarExprNode _ => true | _ => false) &&
            (s.tvarScope.getBinding sym.fullname).isNone
        if ctx.cfg.allowUnboundTvarsEff && unboundTvar then
          .ok (.unbound name args opt eti se sf) s
        else
          let enumCase : Option (TypeInfo × String) :=
            match node with
            | .varNode vname _ _ (some einfo) =>
              if einfo.isEnum then some (einfo, vname) else none
            | _ => none
          match enumCase with
          | some (einfo, vname) =>
            if !definingLiteral then
              .ok (.anyT .fromError none)
                (addMsg s (invalidTypeRawEnumValueMsg einfo.name vname))
            else .ok (.literalT (.s vname) (.inst einfo [] false none)) s
          | none =>
            (analArray ctx fuel s args true).bind fun anArgs s2 =>
              let short := lastComponent nm
              let pair : String × List String :=
                match node with
                | .varNode _ _ _ _ =>
                  ("Variable \"" ++ nm ++ "\" is not valid as a type", [])
                | .funcNode _ =>
                  ("Function \"" ++ nm ++ "\" is not valid as a type",
                   ["Perhaps you need \"Callable[...]\" or a callback protocol?"])
                | .decoratorNode _ =>
                  ("Function \"" ++ nm ++ "\" is not valid as a type",
                   ["Perhaps you need \"Callable[...]\" or a callback protocol?"])
                | .moduleNode _ =>
                  ("Module \"" ++ nm ++ "\" is not valid as a type", [])
                | _ =>
                  if unboundTvar then
                    ("Type variable \"" ++ nm ++ "\" is unbound",
                     ["(Hint: Use \"Generic[" ++ short ++ "]\" or \"Protocol[" ++
                        short ++ "]\" base class to bind \"" ++ short ++
                        "\" inside a class)",
                      "(Hint: Use \"" ++ short ++
                        "\" in function signature to bind \"" ++ short ++
                        "\" inside a function)"])
                  else ("Cannot interpret reference \"" ++ nm ++ "\" as a type", [])
              let s3 := addMsg s2 pair.1
              let s4 := addNotes s3 pair.2
              .ok (.unbound name anArgs opt eti se sf) s4

termination_by structural a1 a2 a3 a4 a5 a6 a7 a8 a9 a10 => a1
/-- The callable-signature special form (analyze_callable_type): bare
means any arguments returning the omitted unknown; a bracketed first
argument parses an explicit signature; an ellipsis first argument accepts
arbitrary arguments; anything else is diagnosed; the built signature is
then itself resolved. -/
def analyzeCallableType (ctx : Ctx) : Nat → AState → MType → String →
    List MType → Res MType
  | 0, _, _, _, _ => .out
  | fuel + 1, s, t, name, args =>
    (namedType ctx s "builtins.function" none).bind fun fallback s1 =>
      match args with
      | [] =>
        let (anyType, msgs) := mGetOmittedAny ctx t none
        let ret := MType.callable [anyType, anyType] [ARG_STAR, ARG_STAR2]
          [none, none] anyType fallback [] true
        visitType ctx fuel (addMsgs s1 msgs) ret
      | [arg0, retArg] =>
        match arg0 with
        | .typeList items =>
          (analyzeCallableArgs ctx fuel s1 items).bind fun analyzed s2 =>
            match analyzed with
            | none => .ok (.anyT .fromError none) s2
            | some (targs, kinds, names) =>
              let ret := MType.callable targs kinds names retArg fallback [] false
              visitType ctx fuel s2 ret
        | .ellipsisT =>
          let ret := MType.callable [.anyT .explicit none, .anyT .explicit none]
            [ARG_STAR, ARG_STAR2] [none, none] retArg fallback [] true
          visitType ctx fuel s1 ret
        | _ =>
          .ok (.anyT .fromError none)
            (addMsg s1 "The first argument to Callable must be a list of types or \"...\"")
      | _ =>
        .ok (.anyT .fromError none)
          (addMsg s1 "Please use \"Callable[[<parameters>], <return type>]\" or \"Callable\"")

termination_by structural a1 a2 a3 a4 a5 => a1
/-- Parsing of a bracketed callable argument list (analyze_callable_args):
the entry loop, then the shared name and kind validators. -/
def analyzeCallableArgs (ctx : Ctx) : Nat → AState → List MType →
    Res (Option (List MType × List Nat × List (Option String)))
  | 0, _, _ => .out
  | fuel + 1, s, items =>
    (callableArgsLoop ctx fuel s items).bind fun acc s2 =>
      match acc with
      | none => .ok none s2
      | some (targs, kinds, names) =>
        let s3 := addMsgs s2 (checkArgNames names "Callable")
        let s4 := addMsgs s3 (checkArgKinds kinds)
        .ok (some (targs, kinds, names)) s4

/-- The entry loop of callable argument parsing: a plain type is a
required positional argument; a constructor-tagged entry takes its kind
from the constructor's resolved name, rejecting unknown constructors and
named star arguments. -/
def callableArgsLoop (ctx : Ctx) : Nat → AState → List MType →
    Res (Option (List MType × List Nat × List (Option String)))
  | 0, _, _ => .out
  | fuel + 1, s, [] => .ok (some ([], [], [])) s
  | fuel + 1, s, arg :: rest =>
    match arg with
    | .callableArg typ argName constr =>
      match constr with
      | none => .ok none s
      | some cname =>
        match ctx.env.lookupQualified cname with
        | none => .ok none s
        | some found =>
          let fn := SymTableNode.fullname found
          match kindByConstructor fn with
          | none =>
            .ok none
              (addMsg s ("Invalid argument constructor \"" ++ fn.getD "None" ++ "\""))
          | some kind =>
            if argName.isSome && (kind == ARG_STAR || kind == ARG_STAR2) then
              .ok none (addMsg s (cname ++ " arguments should not have names"))
            else
              (callableArgsLoop ctx fuel s rest).bind fun acc s2 =>
                match acc with
                | none => .ok none s2
                | some (ts, ks, ns) =>
                  .ok (some (typ :: ts, kind :: ks, argName :: ns)) s2
    | plain =>
      (callableArgsLoop ctx fuel s rest).bind fun acc s2 =>
        match acc with
        | none => .ok none s2
        | some (ts, ks, ns) =>
          .ok (some (plain :: ts, ARG_POS :: ks, (none : Option String) :: ns)) s2

termination_by structural a1 a2 a3 => a1
/-- The literal-of special form (analyze_literal_type): at least one
argument, each resolved to literal types, unioned. -/
def analyzeLiteralType (ctx : Ctx) : Nat → AState → List MType → Res MType
  | 0, _, _ => .out
  | fuel + 1, s, args =>
    if args.length == 0 then
      .ok (.anyT .fromError none)
        (addMsg s "Literal[...] must have at least one parameter")
    else
      (literalParamsEnum ctx fuel s 1 args).bind fun outOpt s2 =>
        match outOpt with
        | none => .ok (.anyT .fromError none) s2
        | some output => .ok (makeUnion output) s2

termination_by structural a1 a2 a3 => a1
/-- The enumerated parameter loop of literal-of: a failed parameter stops
the analysis. -/
def literalParamsEnum (ctx : Ctx) : Nat → AState → Nat → List MType →
    Res (Option (List MType))
  | 0, _, _, _ => .out
  | fuel + 1, s, idx, [] => .ok (some []) s
  | fuel + 1, s, idx, arg :: rest =>
    (analyzeLiteralParam ctx fuel s idx arg).bind fun r s2 =>
      match r with
      | none => .ok none s2
      | some ts =>
        (literalParamsEnum ctx fuel s2 (idx + 1) rest).bind fun rs s3 =>
          match rs with
          | none => .ok none s3
          | some out => .ok (some (ts ++ out)) s3

termination_by structural a1 a2 a3 a4 => a1
/-- One literal-of parameter (analyze_literal_param): a reference written
as a string literal becomes a string literal type; another unresolved
reference is expanded in literal context at one deeper nesting level; the
expanded result is then classified. -/
def analyzeLiteralParam (ctx : Ctx) : Nat → AState → Nat → MType →
    Res (Option (List MType))
  | 0, _, _, _ => .out
  | fuel + 1, s, idx, arg =>
    match arg with
    | .unbound name uargs opt eti (some strExpr) sfOpt =>
      match sfOpt with
      | some sfName =>
        (namedTypeWithNormalizedStr ctx s sfName).bind fun fb s2 =>
          .ok (some [.literalT (.s strExpr) fb]) s2
      | none => .raised "AssertionError: original_str_fallback is None" s
    | .unbound name uargs opt eti none sf =>
      let s1 := bumpNest s
      match visitUnboundType ctx fuel s1 name uargs opt eti none sf true with
      | .ok r s2 => literalParamCore ctx fuel (dropNest s2) idx r
      | .raised m s2 => .raised m (dropNest s2)
      | .out => .out
    | other => literalParamCore ctx fuel s idx other

termination_by structural a1 a2 a3 a4 => a1
/-- Classification of a resolved literal-of parameter: an unknown is
rejected (silently for recovery provenances), a raw scalar becomes a
literal when its kind is allowed, none and literal types pass through, a
final-declaration instance contributes its known value, a union expands,
and anything else is invalid. -/
def literalParamCore (ctx : Ctx) : Nat → AState → Nat → MType →
    Res (Option (List MType))
  | 0, _, _, _ => .out
  | fuel + 1, s, idx, arg =>
    match arg with
    | .anyT p mi =>
      let s2 :=
        if p != .fromError && p != .specialForm then
          addMsg s ("Parameter " ++ toString idx ++
            " of Literal[...] cannot be of type \"Any\"")
        else s
      .ok none s2
    | .rawExpr base litVal noteMsg =>
      match litVal with
      | none =>
        let nm := strReplace base "builtins." ""
        let msg :=
          if nm == "float" || nm == "complex" then
            "Parameter " ++ toString idx ++ " of Literal[...] cannot be of type \"" ++
              nm ++ "\""
          else "Invalid type: Literal[...] cannot contain arbitrary expressions"
        .ok none (addMsg s msg)
      | some v =>
        (namedTypeWithNormalizedStr ctx s base).bind fun fb s2 =>
          .ok (some [.literalT v fb]) s2
    | .noneT => .ok (some [.noneT]) s
    | .literalT v fb => .ok (some [.literalT v fb]) s
    | .inst info iargs inv (some lkv) => .ok (some [lkv]) s
    | .unionT items => literalParamUnion ctx fuel s idx items
    | _ =>
      .ok none
        (addMsg s ("Parameter " ++ toString idx ++ " of Literal[...] is invalid"))

termination_by structural a1 a2 a3 a4 => a1
/-- Union expansion inside a literal-of parameter, at the same index. -/
def literalParamUnion (ctx : Ctx) : Nat → AState → Nat → List MType →
    Res (Option (List MType))
  | 0, _, _, _ => .out
  | fuel + 1, s, idx, [] => .ok (some []) s
  | fuel + 1, s, idx, u :: rest =>
    (analyzeLiteralParam ctx fuel s idx u).bind fun r s2 =>
      match r with
      | none => .ok none s2
      | some ts =>
        (literalParamUnion ctx fuel s2 idx rest).bind fun rs s3 =>
          match rs with
          | none => .ok none s3
          | some out => .ok (some (ts ++ out)) s3

termination_by structural a1 a2 a3 a4 => a1
/-- Signature resolution (visit_callable_type): a fresh scope frame is
pushed, the signature's own variables are bound (outside alias
definitions), argument and return types re-resolve, the fallback is
filled in when still fake, and on a returned result the frame is popped —
the generator-based scope guard has no finally, so an escaping exception
leaves the pushed frame in place. -/
def visitCallableType (ctx : Ctx) : Nat → AState → List MType → List Nat →
    List (Option String) → MType → MType → List TypeVarDefL → Bool → Bool →
    Res MType
  | 0, _, _, _, _, _, _, _, _, _ => .out
  | fuel + 1, s, argTypes, kinds, names, retType, fb, tvs, ell, nested =>
    let oldScope := s.tvarScope
    let s1 := { s with tvarScope := s.tvarScope.methodFrame }
    let body : Res MType :=
      (if ctx.cfg.definingAlias then .ok tvs s1
       else bindFunctionTypeVariables ctx s1 argTypes retType tvs).bind
        fun vars s2 =>
      (analArray ctx fuel s2 argTypes nested).bind fun nArgTypes s3 =>
      (analType ctx fuel s3 retType nested).bind fun nRet s4 =>
      (match fb with
       | .inst info iargs inv lkv =>
         if info.fake then namedType ctx s4 "builtins.function" none
         else .ok (.inst info iargs inv lkv) s4
       | _ => namedType ctx s4 "builtins.function" none).bind fun nFb s5 =>
      (analVarDefs ctx fuel s5 vars).bind fun nVars s6 =>
        .ok (.callable nArgTypes kinds names nRet nFb nVars ell) s6
    match body with
    | .ok r s2 => .ok r { s2 with tvarScope := oldScope }
    | .raised m s2 => .raised m s2
    | .out => .out

termination_by structural a1 a2 a3 a4 a5 a6 a7 a8 a9 a10 => a1
/-- Re-resolution of bound type-variable records (anal_var_defs). -/
def analVarDefs (ctx : Ctx) : Nat → AState → List TypeVarDefL →
    Res (List TypeVarDefL)
  | 0, _, _ => .out
  | fuel + 1, s, [] => .ok [] s
  | fuel + 1, s, vd :: rest =>
    (analArray ctx fuel s vd.values true).bind fun nVals s2 =>
    (visitType ctx fuel s2 vd.upperBound).bind fun nUb s3 =>
    (analVarDefs ctx fuel s3 rest).bind fun nRest s4 =>
      .ok (.mk vd.name vd.fullname vd.id nVals nUb vd.variance :: nRest) s4

termination_by structural a1 a2 a3 => a1
/-- Tuple literal resolution (visit_tuple_type): a literal tuple outside
an assignment context is a syntax error; more than one star item is
diagnosed; otherwise items re-resolve over the (possibly filled-in)
builtin tuple fallback. -/
def visitTupleType (ctx : Ctx) : Nat → AState → List MType → MType → Bool →
    Res MType
  | 0, _, _, _, _ => .out
  | fuel + 1, s, items, fb, implicit =>
    if implicit && !ctx.cfg.allowTupleLiteral then
      let s1 := addMsg s "Syntax error in type annotation"
      let s2 :=
        if items.length == 1 then
          addNote s1 "Suggestion: Is there a spurious trailing comma?"
        else addNote s1 "Suggestion: Use Tuple[T1, ..., Tn] instead of (T1, ..., Tn)"
      .ok (.anyT .fromError none) s2
    else
      let starCount :=
        (items.filter (fun i => match i with | .starT _ => true | _ => false)).length
      if starCount > 1 then
        let s1 := addMsg s "At most one star type allowed in a tuple"
        if implicit then
          (namedType ctx s1 "builtins.tuple" none).bind fun fb2 s2 =>
            .ok (.tupleT (items.map (fun _ => .anyT .fromError none)) fb2 false) s2
        else .ok (.anyT .fromError none) s1
      else
        (match fb with
         | .inst info iargs inv lkv =>
           if info.fake then
             namedType ctx s "builtins.tuple" (some [.anyT .specialForm none])
           else .ok (.inst info iargs inv lkv) s
         | _ =>
           namedType ctx s "builtins.tuple" (some [.anyT .specialForm none])).bind
          fun nFb s2 =>
        (analArray ctx fuel s2 items true).bind fun nItems s3 =>
          .ok (.tupleT nItems nFb false) s3

termination_by structural a1 a2 a3 a4 a5 => a1
/-- Field re-resolution of a record type (visit_typeddict_type). -/
def visitTypedDictFields (ctx : Ctx) : Nat → AState → List (String × MType) →
    Res (List (String × MType))
  | 0, _, _ => .out
  | fuel + 1, s, [] => .ok [] s
  | fuel + 1, s, (n, t) :: rest =>
    (analType ctx fuel s t true).bind fun r s2 =>
      (visitTypedDictFields ctx fuel s2 rest).bind fun rs s3 =>
        .ok ((n, r) :: rs) s3

termination_by structural a1 a2 a3 => a1
/-- Provisional placeholder re-resolution (visit_placeholder_type): still
unresolved or still a placeholder defers again; a materialized class
resolves through the class path; anything else is the Python assertion. -/
def visitPlaceholderType (ctx : Ctx) : Nat → AState → Option String →
    List MType → Res MType
  | 0, _, _, _ => .out
  | fuel + 1, s, fn, args =>
    let n := match fn with | none => none | some f => ctx.env.lookupFqn f
    match n with
    | none => .ok (.placeholder fn args) { s with deferred := true }
    | some nd =>
      match nd.node with
      | some (.placeholderNode _ _) => .ok (.placeholder fn args) { s with deferred := true }
      | some (.typeInfoNode info) => analyzeTypeWithTypeInfo ctx fuel s info args
      | _ => .raised "AssertionError: expected TypeInfo" s

termination_by structural a1 a2 a3 a4 => a1
/-- Nested resolution of one type (anal_type): the nesting counter is
incremented around the dispatch and restored on every outcome (the source
uses try/finally here). -/
def analType (ctx : Ctx) : Nat → AState → MType → Bool → Res MType
  | 0, _, _, _ => .out
  | fuel + 1, s, t, nested =>
    let s1 := if nested then bumpNest s else s
    match visitType ctx fuel s1 t with
    | .ok r s2 => .ok r (if nested then dropNest s2 else s2)
    | .raised m s2 => .raised m (if nested then dropNest s2 else s2)
    | .out => .out

termination_by structural a1 a2 a3 a4 => a1
/-- Nested resolution of a list of types (anal_array). -/
def analArray (ctx : Ctx) : Nat → AState → List MType → Bool →
    Res (List MType)
  | 0, _, _, _ => .out
  | fuel + 1, s, [], nested => .ok [] s
  | fuel + 1, s, t :: ts, nested =>
    (analType ctx fuel s t nested).bind fun r s2 =>
      (analArray ctx fuel s2 ts nested).bind fun rs s3 => .ok (r :: rs) s3

termination_by structural a1 a2 a3 a4 => a1
end

mutual

/-- Specification-side substitution, written from the claim's words: every
occurrence of the formal T anywhere in the type — the node itself
included — is replaced by X, recursively, including inside nested
generics and callables. -/
def substTV (T : String) (X : MType) : MType → MType
  | .unbound n args opt eti se sf =>
    if n == T then X else .unbound n (substTVList T X args) opt eti se sf
  | .typeVarT d => if d.name == T then X else .typeVarT d
  | .inst info args inv lkv => .inst info (substTVList T X args) inv lkv
  | .unionT items => .unionT (substTVList T X items)
  | .tupleT items fb impl => .tupleT (substTVList T X items) fb impl
  | .callable argTypes kinds names retType fb tvs ell =>
    .callable (substTVList T X argTypes) kinds names (substTV T X retType) fb tvs ell
  | .typeTypeT item => .typeTypeT (substTV T X item)
  | .starT typ => .starT (substTV T X typ)
  | .typeList items => .typeList (substTVList T X items)
  | .callableArg typ an c => .callableArg (substTV T X typ) an c
  | .placeholder fn args => .placeholder fn (substTVList T X args)
  | other => other

/-- Specification-side substitution over a list. -/
def substTVList (T : String) (X : MType) : List MType → List MType
  | [] => []
  | a :: rest => substTV T X a :: substTVList T X rest

end

/-- Whether a type is the FlexibleAlias passthrough wrapper instance. -/
def isFlexAliasB : MType → Bool
  | .inst info _ _ _ => info.fullname == "mypy_extensions.FlexibleAlias"
  | _ => false

/-- Concrete class descriptor for builtins.int. -/
def intInfo : TypeInfo := .mk "int" "builtins.int" [] none none false false

/-- Concrete class descriptor for builtins.str. -/
def strInfo : TypeInfo := .mk "str" "builtins.str" [] none none false false

/-- Concrete class descriptor for builtins.bool. -/
def boolInfo : TypeInfo := .mk "bool" "builtins.bool" [] none none false false

/-- Concrete class descriptor for builtins.function. -/
def funcInfo : TypeInfo :=
  .mk "function" "builtins.function" [] none none false false

/-- Concrete class descriptor for builtins.tuple (arity one). -/
def tupleInfo : TypeInfo := .mk "tuple" "builtins.tuple" ["T"] none none false false

/-- Concrete one-parameter class descriptor. -/
def boxInfo : TypeInfo := .mk "Box" "m.Box" ["T"] none none false false

/-- An empty type-variable scope with one root frame. -/
def emptyScope : TVarScope := ⟨[[]], 0⟩

/-- The initial analyzer state. -/
def baseState : AState := ⟨[], [], false, false, 0, emptyScope, []⟩

/-- A driver interface with an empty symbol table. -/
def envEmpty : Env :=
  { lookupQualified := fun _ => none
    lookupFqn := fun _ => none
    lookupFqnOrNone := fun _ => none
    finalIteration := false
    isIncompleteNamespace := fun _ => false
    typeAnalyzeHook := fun _ => none }

/-- The default analyzer configuration. -/
def cfgDefault : AConfig :=
  { definingAlias := false
    allowTupleLiteral := false
    allowUnnormalized := false
    allowUnboundTvars := false
    allowPlaceholder := false
    reportInvalidTypes := true
    isTypeshedStub := false
    options := { disallowAnyGenerics := false, pythonVersionMajor := 3 } }

/-- The default context over the empty symbol table. -/
def ctxEmpty : Ctx := ⟨envEmpty, cfgDefault⟩

/-- Concrete two-parameter class descriptor. -/
def pairInfo : TypeInfo := .mk "Pair" "m.Pair" ["T", "S"] none none false false

/-- The configuration analysing an alias target. -/
def cfgAlias : AConfig := { cfgDefault with definingAlias := true }

/-- The alias-definition context over the empty symbol table. -/
def ctxAlias : Ctx := ⟨envEmpty, cfgAlias⟩

/-- The base state with one pushed scope frame. -/
def scopePushedState : AState :=
  { baseState with tvarScope := baseState.tvarScope.methodFrame }

/-- A driver interface with one placeholder symbol that will become a
class. -/
def envPlaceholder : Env :=
  { envEmpty with
    lookupQualified := fun n =>
      if n == "Foo" then some ⟨5, some (.placeholderNode "m.Foo" true)⟩
      else none }

/-- The default context over the placeholder symbol table. -/
def ctxPlaceholder : Ctx := ⟨envPlaceholder, cfgDefault⟩

/-- A driver interface exposing the builtin tuple class. -/
def envTuple : Env :=
  { envEmpty with
    lookupFqnOrNone := fun n =>
      if n == "builtins.tuple" then some ⟨6, some (.typeInfoNode tupleInfo)⟩
      else none
    lookupFqn := fun n =>
      if n == "builtins.tuple" then some ⟨6, some (.typeInfoNode tupleInfo)⟩
      else none }

/-- The default context over the builtin tuple symbol table. -/
def ctxTuple : Ctx := ⟨envTuple, cfgDefault⟩

/-- A driver interface exposing the builtin int and str classes by
qualified lookup. -/
def envLiterals : Env :=
  { envEmpty with
    lookupFqn := fun n =>
      if n == "builtins.int" then some ⟨6, some (.typeInfoNode intInfo)⟩
      else if n == "builtins.str" then some ⟨6, some (.typeInfoNode strInfo)⟩
      else none }

/-- The default context over the literal fallback classes. -/
def ctxLiterals : Ctx := ⟨envLiterals, cfgDefault⟩

/-- A driver interface exposing int, str, bool, the DefaultArg constructor
and the builtin function class. -/
def envCallable : Env :=
  { envEmpty with
    lookupQualified := fun n =>
      if n == "int" then some ⟨6, some (.typeInfoNode intInfo)⟩
      else if n == "str" then some ⟨6, some (.typeInfoNode strInfo)⟩
      else if n == "bool" then some ⟨6, some (.typeInfoNode boolInfo)⟩
      else if n == "DefaultArg" then
        some ⟨6, some (.funcNode "mypy_extensions.DefaultArg")⟩
      else none
    lookupFqn := fun n =>
      if n == "builtins.function" then some ⟨6, some (.typeInfoNode funcInfo)⟩
      else none }

/-- The default context over the callable fixtures. -/
def ctxCallable : Ctx := ⟨envCallable, cfgDefault⟩

/-- State evolution: diagnostics only accumulate and the two driver
signals are monotone across any resolver step. -/
def stEv (s s2 : AState) : Prop :=
  (∃ d, s2.messages = d ++ s.messages) ∧
  (s.deferred = true → s2.deferred = true) ∧
  (s.incompleteRef = true → s2.incompleteRef = true)

/-- Evolution of a step outcome from its start state. -/
def resEv {α : Type} (s : AState) : Res α → Prop
  | .ok _ s2 => stEv s s2
  | .raised _ s2 => stEv s s2
  | .out => True

/-- The list leg of the substitution is the standalone step mapped. -/
theorem replaceAliasTvarsList_eq_map (vars : List String) (subs : List MType) :
    ∀ l : List MType, replaceAliasTvarsList vars subs l =
      l.map (replaceAliasTvarsStep vars subs) := by
  intro l
  induction l with
  | nil => rfl
  | cons a rest ih =>
    simp only [replaceAliasTvarsList, List.map, replaceAliasTvarsStep]
    exact congrArg _ ih

/-- Substitution composition law: replace_alias_tvars is the per-position
substitution step mapped over the argument positions of the node. -/
theorem replaceAliasTvars_eq_setTypArgs (vars : List String) (subs : List MType) :
    ∀ tp : MType, replaceAliasTvars vars subs tp =
      setTypArgs tp ((getTypArgs tp).map (replaceAliasTvarsStep vars subs)) := by
  intro tp
  cases tp <;>
    simp only [replaceAliasTvars, getTypArgs, setTypArgs,
      replaceAliasTvarsList_eq_map, replaceAliasTvarsStep, List.map_nil]
  case callable argTypes kinds names retType fb tvs ell =>
    simp only [List.map_append, List.map_cons, List.map_nil]
    rw [List.dropLast_concat, List.getLastD_concat]
    rfl
  all_goals rfl

mutual

/-- Flattened union members are never themselves unions. -/
theorem unionItems_not_union : ∀ t : MType, ∀ x ∈ unionItems t, x.isUnionB = false := by
  intro t
  match t with
  | .unionT items =>
    simpa only [unionItems] using unionItemsList_not_union items
  | .unbound a b c d e f => intro x hx; simp only [unionItems, List.mem_singleton] at hx; subst hx; rfl
  | .anyT p mi => intro x hx; simp only [unionItems, List.mem_singleton] at hx; subst hx; rfl
  | .noneT => intro x hx; simp only [unionItems, List.mem_singleton] at hx; subst hx; rfl
  | .uninhabited nr => intro x hx; simp only [unionItems, List.mem_singleton] at hx; subst hx; rfl
  | .deleted => intro x hx; simp only [unionItems, List.mem_singleton] at hx; subst hx; rfl
  | .typeList items => intro x hx; simp only [unionItems, List.mem_singleton] at hx; subst hx; rfl
  | .callableArg a b c => intro x hx; simp only [unionItems, List.mem_singleton] at hx; subst hx; rfl
  | .inst a b c d => intro x hx; simp only [unionItems, List.mem_singleton] at hx; subst hx; rfl
  | .typeVarT d => intro x hx; simp only [unionItems, List.mem_singleton] at hx; subst hx; rfl
  | .callable a b c d e f g => intro x hx; simp only [unionItems, List.mem_singleton] at hx; subst hx; rfl
  | .tupleT a b c => intro x hx; simp only [unionItems, List.mem_singleton] at hx; subst hx; rfl
  | .typedDict a b c => intro x hx; simp only [unionItems, List.mem_singleton] at hx; subst hx; rfl
  | .rawExpr a b c => intro x hx; simp only [unionItems, List.mem_singleton] at hx; subst hx; rfl
  | .literalT a b => intro x hx; simp only [unionItems, List.mem_singleton] at hx; subst hx; rfl
  | .starT a => intro x hx; simp only [unionItems, List.mem_singleton] at hx; subst hx; rfl
  | .partl => intro x hx; simp only [unionItems, List.mem_singleton] at hx; subst hx; rfl
  | .ellipsisT => intro x hx; simp only [unionItems, List.mem_singleton] at hx; subst hx; rfl
  | .typeTypeT a => intro x hx; simp only [unionItems, List.mem_singleton] at hx; subst hx; rfl
  | .placeholder a b => intro x hx; simp only [unionItems, List.mem_singleton] at hx; subst hx; rfl

/-- Flattened members of a member list are never unions. -/
theorem unionItemsList_not_union :
    ∀ l : List MType, ∀ x ∈ unionItemsList l, x.isUnionB = false := by
  intro l
  match l with
  | [] => intro x hx; simp only [unionItemsList, List.not_mem_nil] at hx
  | t :: rest =>
    intro x hx
    simp only [unionItemsList, List.mem_append] at hx
    rcases hx with h | h
    · exact unionItems_not_union t x h
    · exact unionItemsList_not_union rest x h

end

/-- A non-union type flattens to itself. -/
theorem unionItems_eq_self (t : MType) (h : t.isUnionB = false) :
    unionItems t = [t] := by
  cases t <;> first | rfl | simp [MType.isUnionB] at h

/-- Flattening a list of non-unions is the identity. -/
theorem unionItemsList_eq_self (l : List MType)
    (h : ∀ x ∈ l, x.isUnionB = false) : unionItemsList l = l := by
  induction l with
  | nil => rfl
  | cons a rest ih =>
    simp only [unionItemsList]
    rw [unionItems_eq_self a (h a (by simp)),
      ih (fun x hx => h x (by simp [hx]))]
    rfl

/-- Flattening distributes over append. -/
theorem unionItemsList_append (a b : List MType) :
    unionItemsList (a ++ b) = unionItemsList a ++ unionItemsList b := by
  induction a with
  | nil => rfl
  | cons x rest ih =>
    simp only [List.cons_append, unionItemsList, List.append_eq, ih, List.append_assoc]

/-- C5: nullable wrapping satisfies the stated equations: wrapping none
is a no-op; wrapping a union that already ends in none is the identity
and introduces no duplicate none member; wrapping a type that is neither
none nor a union appends one none member; and wrapping is idempotent. -/
theorem C5_nullable_wrapping :
    makeOptionalType .noneT = .noneT ∧
    (∀ A : MType, A.isUnionB = false → A.isNoneB = false →
      makeOptionalType (.unionT [A, .noneT]) = .unionT [A, .noneT]) ∧
    (∀ A : MType, A.isUnionB = false → A.isNoneB = false →
      makeOptionalType A = .unionT [A, .noneT]) ∧
    (∀ t : MType, makeOptionalType (makeOptionalType t) = makeOptionalType t) := by
  refine ⟨rfl, ?_, ?_, ?_⟩
  · intro A hu hn
    simp only [makeOptionalType, unionItemsList, unionItems_eq_self A hu]
    simp [List.filter, hn]
    rfl
  · intro A hu hn
    cases A <;> first | rfl | simp [MType.isUnionB, MType.isNoneB] at hu hn
  · intro t
    cases t
    case unionT items =>
      simp only [makeOptionalType]
      have hkept : ∀ x ∈ (unionItemsList items).filter (fun i => !i.isNoneB),
          x.isUnionB = false := by
        intro x hx
        exact unionItemsList_not_union items x (List.mem_of_mem_filter hx)
      rw [unionItemsList_append, unionItemsList_eq_self _ hkept]
      simp only [unionItemsList, unionItems, List.append_nil]
      rw [List.filter_append]
      have h1 : ((unionItemsList items).filter (fun i => !i.isNoneB)).filter
          (fun i => !i.isNoneB) = (unionItemsList items).filter (fun i => !i.isNoneB) :=
        List.filter_eq_self.mpr
          (fun a ha => @List.of_mem_filter _ (fun i => !i.isNoneB) a _ ha)
      rw [h1]
      simp [MType.isNoneB]
    all_goals rfl

/-- Witness for C5 at a concrete member type. -/
theorem C5_nullable_wrapping_witness :
    makeOptionalType (.unionT [.anyT .explicit none, .noneT]) =
      .unionT [.anyT .explicit none, .noneT] ∧
    makeOptionalType (.anyT .explicit none) =
      .unionT [.anyT .explicit none, .noneT] :=
  ⟨C5_nullable_wrapping.2.1 (.anyT .explicit none) rfl rfl,
   C5_nullable_wrapping.2.2.1 (.anyT .explicit none) rfl rfl⟩

/-- Specification-side substitution over a list is a map. -/
theorem substTVList_eq_map (T : String) (X : MType) :
    ∀ l : List MType, substTVList T X l = l.map (substTV T X) := by
  intro l
  induction l with
  | nil => rfl
  | cons a rest ih => simp only [substTVList, List.map]; exact congrArg _ ih

/-- Single-formal substitution hit characterization. -/
theorem substHit_single (T : String) (X arg : MType) :
    substHit [T] [X] arg =
      if tvarNameOf arg == some T then some X else none := by
  unfold substHit
  cases htv : tvarNameOf arg with
  | none => rfl
  | some tv =>
    by_cases h : tv = T
    · subst h
      simp [List.contains, List.indexOf, List.findIdx, List.findIdx.go]
    · simp only [List.contains_cons, List.contains_nil, Bool.or_false,
        Option.some.injEq]
      rw [if_neg (by simpa using h), if_neg (by simpa using h)]

/-- Argument positions are structurally smaller than their node. -/
theorem sizeOf_getTypArgs_lt (t : MType) :
    ∀ x ∈ getTypArgs t, sizeOf x < sizeOf t := by
  cases t
  case unbound n args opt eti se sf =>
    intro x hx
    have h := List.sizeOf_lt_of_mem (by simpa only [getTypArgs] using hx)
    simp only [MType.unbound.sizeOf_spec]
    omega
  case typeList items =>
    intro x hx
    have h := List.sizeOf_lt_of_mem (by simpa only [getTypArgs] using hx)
    simp only [MType.typeList.sizeOf_spec]
    omega
  case callableArg typ an c =>
    intro x hx
    simp only [getTypArgs, List.mem_singleton] at hx
    subst hx
    simp only [MType.callableArg.sizeOf_spec]
    omega
  case inst info args inv lkv =>
    intro x hx
    have h := List.sizeOf_lt_of_mem (by simpa only [getTypArgs] using hx)
    simp only [MType.inst.sizeOf_spec]
    omega
  case callable argTypes kinds names retType fb tvs ell =>
    intro x hx
    simp only [getTypArgs, List.mem_append, List.mem_singleton] at hx
    simp only [MType.callable.sizeOf_spec]
    rcases hx with hx | hx
    · have h := List.sizeOf_lt_of_mem hx
      omega
    · subst hx
      omega
  case tupleT items fb impl =>
    intro x hx
    have h := List.sizeOf_lt_of_mem (by simpa only [getTypArgs] using hx)
    simp only [MType.tupleT.sizeOf_spec]
    omega
  case starT typ =>
    intro x hx
    simp only [getTypArgs, List.mem_singleton] at hx
    subst hx
    simp only [MType.starT.sizeOf_spec]
    omega
  case unionT items =>
    intro x hx
    have h := List.sizeOf_lt_of_mem (by simpa only [getTypArgs] using hx)
    simp only [MType.unionT.sizeOf_spec]
    omega
  case typeTypeT item =>
    intro x hx
    simp only [getTypArgs, List.mem_singleton] at hx
    subst hx
    simp only [MType.typeTypeT.sizeOf_spec]
    omega
  case placeholder fn args =>
    intro x hx
    have h := List.sizeOf_lt_of_mem (by simpa only [getTypArgs] using hx)
    simp only [MType.placeholder.sizeOf_spec]
    omega
  all_goals intro x hx; simp only [getTypArgs, List.not_mem_nil] at hx

/-- Without a direct hit, specification-side substitution rebuilds the
node from its substituted argument positions. -/
theorem substTV_miss_eq (T : String) (X : MType) (t : MType)
    (h : substHit [T] [X] t = none) :
    substTV T X t = setTypArgs t ((getTypArgs t).map (substTV T X)) := by
  rw [substHit_single] at h
  cases t <;>
    simp only [substTV, getTypArgs, setTypArgs, List.map_nil]
  case unbound n args opt eti se sf =>
    simp only [tvarNameOf] at h
    by_cases hc : n = T
    · subst hc; simp at h
    · rw [if_neg (by simpa using hc), substTVList_eq_map]
  case typeVarT d =>
    simp only [tvarNameOf] at h
    by_cases hc : d.name = T
    · simp only [hc] at h; simp at h
    · rw [if_neg (by simpa using hc)]
  case inst info args inv lkv => rw [substTVList_eq_map]
  case unionT items => rw [substTVList_eq_map]
  case tupleT items fb impl => rw [substTVList_eq_map]
  case typeList items => rw [substTVList_eq_map]
  case placeholder fn args => rw [substTVList_eq_map]
  case callable argTypes kinds names retType fb tvs ell =>
    simp only [List.map_append, List.map_cons, List.map_nil]
    rw [List.dropLast_concat, List.getLastD_concat, substTVList_eq_map]
  all_goals rfl

/-- For a single formal the source substitution step coincides with the
specification-side substitution: the occurrence check first, otherwise
recursion into argument positions. -/
theorem replaceStep_eq_substTV (T : String) (X : MType) :
    ∀ arg : MType, replaceAliasTvarsStep [T] [X] arg = substTV T X arg := by
  have main : ∀ n : Nat, ∀ a : MType, sizeOf a < n →
      replaceAliasTvarsStep [T] [X] a = substTV T X a := by
    intro n
    induction n using Nat.strong_induction_on with
    | _ n ih =>
      intro a ha
      rw [replaceAliasTvarsStep]
      cases hhit : substHit [T] [X] a with
      | some r =>
        show r = substTV T X a
        have h2 : (if tvarNameOf a == some T then some X else none) = some r := by
          rw [← substHit_single]; exact hhit
        by_cases hc : tvarNameOf a = some T
        · rw [if_pos (by simpa using hc)] at h2
          injection h2 with hXr
          rw [← hXr]
          show X = substTV T X a
          cases a <;> simp only [tvarNameOf] at hc <;> try simp at hc
          all_goals simp only [substTV]
          all_goals rw [if_pos (by simp [hc])]
        · rw [if_neg (by simpa using hc)] at h2
          cases h2
      | none =>
        show replaceAliasTvars [T] [X] a = substTV T X a
        rw [substTV_miss_eq T X a hhit,
          replaceAliasTvars_eq_setTypArgs [T] [X] a]
        refine congrArg _ (List.map_congr_left ?_)
        intro x hx
        exact ih (sizeOf a) ha x (sizeOf_getTypArgs_lt a x hx)
  intro arg
  exact main (sizeOf arg + 1) arg (by omega)

/-- C4 counterexample: expanding an alias whose target is exactly the bare
formal reference returns the reference unchanged rather than the actual,
so the claim that every occurrence of the formal in the target is
replaced fails at the top level. -/
theorem C4_counterexample :
    expandTypeAlias (.unbound "T" [] false false none none) ["T"] [.noneT]
        false false none =
      .ok (.unbound "T" [] false false none none, []) ∧
    MType.unbound "T" [] false false none none ≠ MType.noneT :=
  ⟨rfl, fun h => MType.noConfusion h⟩

/-- C4 (amended): alias expansion returns the target unchanged on no
formals, no actuals and no bare-declaration flag; applies actuals directly
on a bare-declared instance target; with a single formal substitutes every
occurrence of the formal in the target's argument positions, recursively
including nested generics and callables (the top-level node itself is not
a substitution position, and the FlexibleAlias passthrough shape unwraps
separately); the specification-side substitution replaces every direct
occurrence; and a mismatched nonzero count is diagnosed with expected and
given counts while every formal occurrence becomes an error unknown. -/
theorem C4_alias_expansion :
    (∀ (target : MType) (dis : Bool) (un : Option MType),
      expandTypeAlias target [] [] false dis un = .ok (target, [])) ∧
    (∀ (info : TypeInfo) (oldArgs : List MType) (inv : Bool)
        (lkv : Option MType) (X Y : MType) (dis : Bool) (un : Option MType),
      expandTypeAlias (.inst info oldArgs inv lkv) [] [X, Y] true dis un =
        .ok (.inst info [X, Y] false none, [])) ∧
    (∀ (T : String) (X target : MType) (na dis : Bool) (un : Option MType),
      isFlexAliasB target = false →
      expandTypeAlias target [T] [X] na dis un =
        .ok (setTypArgs target ((getTypArgs target).map (substTV T X)), [])) ∧
    (∀ (T : String) (X t : MType), tvarNameOf t = some T → substTV T X t = X) ∧
    (∀ (target : MType) (vars : List String) (args : List MType) (na dis : Bool)
        (un : Option MType),
      0 < vars.length → 0 < args.length → vars.length ≠ args.length →
      expandTypeAlias target vars args na dis un =
        .ok (replaceAliasTvars vars
              (List.replicate vars.length (.anyT .fromError none)) target,
            [badAliasArityMsg vars.length args.length])) := by
  refine ⟨fun target dis un => rfl, fun info oldArgs inv lkv X Y dis un => rfl,
    ?_, ?_, ?_⟩
  · intro T X target na dis un hflex
    have hsub : replaceAliasTvars [T] [X] target =
        setTypArgs target ((getTypArgs target).map (substTV T X)) := by
      rw [replaceAliasTvars_eq_setTypArgs]
      exact congrArg _ (List.map_congr_left (fun a _ => replaceStep_eq_substTV T X a))
    rw [← hsub]
    cases target <;> try rfl
    case inst info args inv lkv =>
      simp only [isFlexAliasB] at hflex
      show Except.ok
          ((if (info.fullname == "mypy_extensions.FlexibleAlias") = true then
              (replaceAliasTvarsList [T] [X] args).getLastD
                (.inst info (replaceAliasTvarsList [T] [X] args) inv lkv)
            else .inst info (replaceAliasTvarsList [T] [X] args) inv lkv), []) = _
    
      rw [if_neg (by simp [hflex])]
      rfl
  · intro T X t ht
    cases t <;> simp only [tvarNameOf, Option.some.injEq] at ht <;>
      first
      | exact absurd ht (by simp)
      | simp [substTV, ht]
  · intro target vars args na dis un hv ha hne
    simp only [expandTypeAlias]
    rw [if_neg (by simp; intro _ h; rw [h] at ha; simp at ha),
      if_neg (by simp; intro h; rw [h] at hv; simp at hv),
      if_neg (by simp; intro h; rw [h] at hv; simp at hv),
      if_pos (by simp; omega)]
    rfl

/-- Witness for C4 applying the amended theorem at a concrete alias. -/
theorem C4_alias_expansion_witness :
    expandTypeAlias (.inst boxInfo [.unbound "T" [] false false none none]
        false none) ["T"] [.inst intInfo [] false none] false false none =
      .ok (.inst boxInfo [.inst intInfo [] false none] false none, []) ∧
    expandTypeAlias (.inst boxInfo [.unbound "T" [] false false none none]
        false none) ["T", "S"] [.inst intInfo [] false none] false false none =
      .ok (.inst boxInfo [.anyT .fromError none] false none,
        [badAliasArityMsg 2 1]) := by
  constructor
  · have h := C4_alias_expansion.2.2.1 "T" (.inst intInfo [] false none)
      (.inst boxInfo [.unbound "T" [] false false none none] false none)
      false false none (by rfl)
    rw [h]
    rfl
  · have h := C4_alias_expansion.2.2.2.2
      (.inst boxInfo [.unbound "T" [] false false none none] false none)
      ["T", "S"] [.inst intInfo [] false none] false false none
      (by decide) (by decide) (by decide)
    rw [h]
    rfl

/-- Resolution of an argument list preserves its length. -/
theorem analArray_length (ctx : Ctx) :
    ∀ (fuel : Nat) (s : AState) (ts : List MType) (nested : Bool)
      (l : List MType) (s2 : AState),
      analArray ctx fuel s ts nested = .ok l s2 → l.length = ts.length := by
  intro fuel
  induction fuel with
  | zero =>
    intro s ts nested l s2 h
    simp only [analArray] at h
    exact Res.noConfusion h
  | succ n ih =>
    intro s ts nested l s2 h
    cases ts with
    | nil =>
      simp only [analArray] at h
      injection h with h1 h2
      rw [← h1]
    | cons t rest =>
      simp only [analArray] at h
      cases ht : analType ctx n s t nested with
      | ok r s3 =>
        rw [ht] at h
        simp only [Res.bind] at h
        cases hr : analArray ctx n s3 rest nested with
        | ok rs s4 =>
          rw [hr] at h
          simp only [Res.bind] at h
          injection h with h1 h2
          rw [← h1]
          simp [ih s3 rest nested rs s4 hr]
        | raised m s4 =>
          rw [hr] at h
          simp only [Res.bind] at h
          exact Res.noConfusion h
        | out =>
          rw [hr] at h
          simp only [Res.bind] at h
          exact Res.noConfusion h
      | raised m s3 =>
        rw [ht] at h
        simp only [Res.bind] at h
        exact Res.noConfusion h
      | out =>
        rw [ht] at h
        simp only [Res.bind] at h
        exact Res.noConfusion h

/-- C3: arity fixup: a zero-argument instance is padded to declared arity
with an unknown filler and is not marked invalid; a nonzero wrong count is
replaced by arity-many error unknowns, marked invalid, and diagnosed with
expected versus actual counts (rendered with the zero and singular special
cases and numerals otherwise, as the three concrete renderings show); and
the resolver applies no fixup to an instance whose analyzed argument count
equals the declared arity. -/
theorem C3_arity_fixup :
    (∀ (info : TypeInfo) (lkv : Option MType) (dis ug : Bool) (un : Option MType),
      ∃ (p : TypeOfAny) (msgs : List String),
        fixInstance (.inst info [] false lkv) dis ug un =
          (.inst info (List.replicate info.typeVars.length (.anyT p none))
            false lkv, msgs)) ∧
    (∀ (info : TypeInfo) (args : List MType) (lkv : Option MType)
        (dis ug : Bool) (un : Option MType),
      0 < args.length → args.length ≠ info.typeVars.length →
      ∃ msg : String,
        fixInstance (.inst info args false lkv) dis ug un =
          (.inst info (List.replicate info.typeVars.length (.anyT .fromError none))
            true lkv, [msg])) ∧
    (fixInstance (.inst intInfo [.noneT, .noneT] false none) false false none =
      (.inst intInfo [] true none,
        ["\"int\" expects no type arguments, but 2 given"])) ∧
    (fixInstance (.inst boxInfo [.noneT, .noneT] false none) false false none =
      (.inst boxInfo [.anyT .fromError none] true none,
        ["\"Box\" expects 1 type argument, but 2 given"])) ∧
    (fixInstance (.inst pairInfo [.noneT, .noneT, .noneT] false none) false false none =
      (.inst pairInfo [.anyT .fromError none, .anyT .fromError none] true none,
        ["\"Pair\" expects 2 type arguments, but 3 given"])) ∧
    (∀ (ctx : Ctx) (fuel : Nat) (s : AState) (info : TypeInfo)
        (args args2 : List MType) (s2 : AState),
      info.fullname ≠ "builtins.tuple" →
      info.tupleType = none → info.typedDictType = none →
      analArray ctx fuel s args true = .ok args2 s2 →
      args2.length = info.typeVars.length →
      analyzeTypeWithTypeInfo ctx (fuel + 1) s info args =
        .ok (.inst info args2 false none) s2) := by
  refine ⟨?_, ?_, rfl, rfl, rfl, ?_⟩
  · intro info lkv dis ug un
    by_cases hd : dis
    · subst hd
      simp only [fixInstance, getOmittedAny]
      cases hn : (if ug then (none : Option String) else some info.fullname).bind
          nongenLookup with
      | some alt =>
        refine ⟨.fromError, [implicitGenericAnyBuiltinMsg alt], ?_⟩
        simp [hn]
      | none =>
        refine ⟨.fromError,
          [bareGenericMsg (quoteTypeString (typeStrForMsg
            (un.getD (.inst info [] false lkv))))], ?_⟩
        simp [hn]
    · simp only [Bool.not_eq_true] at hd
      subst hd
      exact ⟨.fromOmittedGenerics, [], rfl⟩
  · intro info args lkv dis ug un ha hne
    simp only [fixInstance]
    rw [if_neg (by simp; intro h; rw [h] at ha; simp at ha)]
    exact ⟨_, rfl⟩
  · intro ctx fuel s info args args2 s2 hfn htup htd harr hlen
    have harglen : args2.length = args.length := analArray_length ctx fuel s args true args2 s2 harr
    simp only [analyzeTypeWithTypeInfo]
    rw [if_neg (by simp [hfn])]
    rw [harr]
    simp only [Res.bind]
    rw [if_neg (by simp [hlen])]
    rw [htup, htd]
    rfl

/-- Witness for C3 applying the theorem at concrete instances. -/
theorem C3_arity_fixup_witness :
    (∃ (p : TypeOfAny) (msgs : List String),
      fixInstance (.inst boxInfo [] false none) false false none =
        (.inst boxInfo (List.replicate boxInfo.typeVars.length (.anyT p none))
          false none, msgs)) ∧
    (∃ msg : String,
      fixInstance (.inst boxInfo [.noneT, .noneT] false none) false false none =
        (.inst boxInfo
          (List.replicate boxInfo.typeVars.length (.anyT .fromError none))
          true none, [msg])) ∧
    analyzeTypeWithTypeInfo ctxEmpty 2 baseState intInfo [] =
      .ok (.inst intInfo [] false none) baseState :=
  ⟨C3_arity_fixup.1 boxInfo none false false none,
   C3_arity_fixup.2.1 boxInfo [.noneT, .noneT] none false false none
     (by decide) (by decide),
   C3_arity_fixup.2.2.2.2.2 ctxEmpty 1 baseState intInfo [] [] baseState
     (by decide) rfl rfl rfl rfl⟩

/-- C9 counterexample: when an exception escapes the nested-signature
resolution (here the internal partial-type assertion raised while
resolving the return type), the pushed Type Variable Scope frame is not
popped: the state carried by the exception still holds the child frame. -/
theorem C9_counterexample :
    visitCallableType ctxAlias 3 baseState [] [] [] .partl
        (.inst funcInfo [] false none) [] false true =
      .raised "Internal error: Unexpected partial type" scopePushedState ∧
    scopePushedState.tvarScope ≠ baseState.tvarScope := by
  refine ⟨rfl, ?_⟩
  intro h
  have hlen := congrArg (fun sc => sc.frames.length) h
  simp [scopePushedState, baseState, emptyScope, TVarScope.methodFrame] at hlen

/-- C9 (amended): the Type Variable Scope frame pushed by a
nested-signature resolution is popped on every exit path on which the
visit returns a result — normal or error-result — so the scope chain
after a completed visit equals the chain before it; an exception escaping
the nested resolution skips the pop. -/
theorem C9_scope_frame (ctx : Ctx) (fuel : Nat) (s : AState)
    (argTypes : List MType) (kinds : List Nat) (names : List (Option String))
    (retType fb : MType) (tvs : List TypeVarDefL) (ell nested : Bool)
    (r : MType) (s2 : AState)
    (h : visitCallableType ctx fuel s argTypes kinds names retType fb tvs ell
      nested = .ok r s2) :
    s2.tvarScope = s.tvarScope := by
  cases fuel with
  | zero =>
    simp only [visitCallableType] at h
    exact Res.noConfusion h
  | succ n =>
    simp only [visitCallableType] at h
    split at h
    · injection h with h1 h2
      rw [← h2]
    · exact Res.noConfusion h
    · exact Res.noConfusion h

/-- Witness for C9 at a concrete completing visit. -/
theorem C9_scope_frame_witness : baseState.tvarScope = baseState.tvarScope :=
  C9_scope_frame ctxEmpty 3 baseState [] [] [] .noneT
    (.inst funcInfo [] false none) [] false true
    (.callable [] [] [] .noneT (.inst funcInfo [] false none) [] false)
    baseState (by rfl)

/-- C1 counterexample: with placeholder propagation not requested and the
final iteration not reached, resolving a reference to a placeholder that
will become a type records the incomplete-reference signal but returns a
placeholder type, not the unknown/error type the claim states. -/
theorem C1_counterexample :
    visitType ctxPlaceholder 5 baseState (.unbound "Foo" [] false false none none) =
      .ok (.placeholder (some "m.Foo") [])
        { baseState with incompleteRef := true } ∧
    MType.placeholder (some "m.Foo") [] ≠ MType.anyT .fromError none :=
  ⟨rfl, fun h => MType.noConfusion h⟩

/-- C1 (amended): for a reference whose symbol is a placeholder that will
become a type: on the final iteration the cyclic-definition diagnostic is
reported and the unknown/error type returned; otherwise with placeholder
propagation a deferral is requested and a placeholder type carrying the
target's qualified name and resolved arguments is returned; otherwise the
incomplete-reference signal is recorded and the same placeholder type —
not the unknown/error type — is returned. -/
theorem C1_placeholder_protocol :
    (∀ (ctx : Ctx) (fuel : Nat) (s : AState) (name : String) (args : List MType)
        (opt eti : Bool) (se sf : Option String) (dl : Bool)
        (sym : SymTableNode) (full : String),
      ctx.env.lookupQualified name = some sym →
      sym.node = some (.placeholderNode full true) →
      ctx.env.finalIteration = true →
      visitUnboundTypeNonoptional ctx (fuel + 1) s name args opt eti se sf dl =
        .ok (.anyT .fromError none) (addMsg s (cannotResolveMsg name))) ∧
    (∀ (ctx : Ctx) (fuel : Nat) (s : AState) (name : String) (args : List MType)
        (opt eti : Bool) (se sf : Option String) (dl : Bool)
        (sym : SymTableNode) (full : String) (ts : List MType) (s3 : AState),
      ctx.env.lookupQualified name = some sym →
      sym.node = some (.placeholderNode full true) →
      ctx.env.finalIteration = false →
      ctx.cfg.allowPlaceholder = true →
      analArray ctx fuel { s with deferred := true } args true = .ok ts s3 →
      visitUnboundTypeNonoptional ctx (fuel + 1) s name args opt eti se sf dl =
        .ok (.placeholder (some full) ts) s3) ∧
    (∀ (ctx : Ctx) (fuel : Nat) (s : AState) (name : String) (args : List MType)
        (opt eti : Bool) (se sf : Option String) (dl : Bool)
        (sym : SymTableNode) (full : String) (ts : List MType) (s3 : AState),
      ctx.env.lookupQualified name = some sym →
      sym.node = some (.placeholderNode full true) →
      ctx.env.finalIteration = false →
      ctx.cfg.allowPlaceholder = false →
      analArray ctx fuel { s with incompleteRef := true } args true = .ok ts s3 →
      visitUnboundTypeNonoptional ctx (fuel + 1) s name args opt eti se sf dl =
        .ok (.placeholder (some full) ts) s3) := by
  refine ⟨?_, ?_, ?_⟩
  · intro ctx fuel s name args opt eti se sf dl sym full hlook hnode hfin
    simp only [visitUnboundTypeNonoptional, hlook, hnode, hfin, if_true]
  · intro ctx fuel s name args opt eti se sf dl sym full ts s3 hlook hnode hfin
      hap harr
    simp only [visitUnboundTypeNonoptional, hlook, hnode, hfin, hap,
      Bool.false_eq_true, if_false, if_true, harr, Res.bind]
  · intro ctx fuel s name args opt eti se sf dl sym full ts s3 hlook hnode hfin
      hap harr
    simp only [visitUnboundTypeNonoptional, hlook, hnode, hfin, hap,
      Bool.false_eq_true, if_false, if_true, harr, Res.bind]

/-- Witness for C1 at the concrete placeholder symbol table. -/
theorem C1_placeholder_protocol_witness :
    visitUnboundTypeNonoptional ctxPlaceholder 4 baseState "Foo" [] false false
        none none false =
      .ok (.placeholder (some "m.Foo") [])
        { baseState with incompleteRef := true } :=
  C1_placeholder_protocol.2.2 ctxPlaceholder 3 baseState "Foo" [] false false
    none none false ⟨5, some (.placeholderNode "m.Foo" true)⟩ "m.Foo" []
    { baseState with incompleteRef := true } rfl rfl rfl rfl rfl

/-- C10: the tuple-of special form with zero type arguments depends on the
empty-tuple marker: unset, the result is the variable-length builtin
tuple instance with one unknown element type; set (the written form
Tuple[()]), the result is the fixed-length tuple type with no element
types over the builtin tuple fallback. -/
theorem C10_empty_tuple_marker :
    (∀ (ctx : Ctx) (fuel : Nat) (s : AState) (t : MType) (name : String)
        (symA symB : SymTableNode) (tiA tiB : TypeInfo),
      ctx.env.lookupFqnOrNone "builtins.tuple" = some symA →
      symA.node = some (.typeInfoNode tiA) →
      ctx.env.lookupFqn "builtins.tuple" = some symB →
      symB.node = some (.typeInfoNode tiB) →
      ctx.cfg.options.disallowAnyGenerics = false →
      tryAnalyzeSpecial ctx (fuel + 1) s t name [] false "typing.Tuple" =
        .ok (some (.inst tiB [.anyT .fromOmittedGenerics none] false none)) s) ∧
    (∀ (ctx : Ctx) (fuel : Nat) (s : AState) (t : MType) (name : String)
        (symA symB : SymTableNode) (tiA tiB : TypeInfo),
      ctx.env.lookupFqnOrNone "builtins.tuple" = some symA →
      symA.node = some (.typeInfoNode tiA) →
      ctx.env.lookupFqn "builtins.tuple" = some symB →
      symB.node = some (.typeInfoNode tiB) →
      tryAnalyzeSpecial ctx (fuel + 2) s t name [] true "typing.Tuple" =
        .ok (some (.tupleT [] (.inst tiB [.anyT .specialForm none] false none)
          false)) s) := by
  constructor
  · intro ctx fuel s t name symA symB tiA tiB h1 h2 h3 h4 h5
    simp only [tryAnalyzeSpecial, specialKind, h1, h2]
    simp [mGetOmittedAny, getOmittedAny, namedType, h3, h4, h5, Res.bind, addMsgs]
  · intro ctx fuel s t name symA symB tiA tiB h1 h2 h3 h4
    simp only [tryAnalyzeSpecial, specialKind, h1, h2]
    simp [tupleEllipsisHead, analArray, Res.bind, tupleTypeHelper, namedType, h3, h4]

/-- Witness for C10 at the concrete builtin tuple class. -/
theorem C10_empty_tuple_marker_witness :
    tryAnalyzeSpecial ctxTuple 3 baseState (.unbound "Tuple" [] false false
        none none) "Tuple" [] false "typing.Tuple" =
      .ok (some (.inst tupleInfo [.anyT .fromOmittedGenerics none] false none))
        baseState ∧
    tryAnalyzeSpecial ctxTuple 3 baseState (.unbound "Tuple" [] false true
        none none) "Tuple" [] true "typing.Tuple" =
      .ok (some (.tupleT []
        (.inst tupleInfo [.anyT .specialForm none] false none) false))
        baseState :=
  ⟨C10_empty_tuple_marker.1 ctxTuple 2 baseState
      (.unbound "Tuple" [] false false none none) "Tuple"
      ⟨6, some (.typeInfoNode tupleInfo)⟩ ⟨6, some (.typeInfoNode tupleInfo)⟩
      tupleInfo tupleInfo rfl rfl rfl rfl rfl,
   C10_empty_tuple_marker.2 ctxTuple 1 baseState
      (.unbound "Tuple" [] false true none none) "Tuple"
      ⟨6, some (.typeInfoNode tupleInfo)⟩ ⟨6, some (.typeInfoNode tupleInfo)⟩
      tupleInfo tupleInfo rfl rfl rfl rfl⟩

/-- C7 counterexample: a floating-point scalar in literal-of is rejected,
but the diagnostic is the literal-parameter message, not the quoted
"floating point literals cannot be used as a type" text. -/
theorem C7_counterexample :
    analyzeLiteralType ctxEmpty 5 baseState
        [.rawExpr "builtins.float" none none] =
      .ok (.anyT .fromError none)
        (addMsg baseState
          "Parameter 1 of Literal[...] cannot be of type \"float\"") ∧
    "floating point literals cannot be used as a type" ∉
      (addMsg baseState
        "Parameter 1 of Literal[...] cannot be of type \"float\"").messages :=
  ⟨rfl, by decide⟩

/-- C7 (amended): literal-of resolves each argument to literal types and
returns their union — the concrete scenario yields the three-literal
union with integer and string fallbacks — while a floating-point scalar
is rejected with the diagnostic naming the parameter and the float kind
and yields the unknown/error type. -/
theorem C7_literal_construction :
    analyzeLiteralType ctxLiterals 8 baseState
        [.rawExpr "builtins.int" (some (.i 1)) none,
         .rawExpr "builtins.int" (some (.i 2)) none,
         .unbound "x" [] false false (some "x") (some "builtins.str")] =
      .ok (.unionT [.literalT (.i 1) (.inst intInfo [] false none),
                    .literalT (.i 2) (.inst intInfo [] false none),
                    .literalT (.s "x") (.inst strInfo [] false none)])
        baseState ∧
    (∀ (ctx : Ctx) (fuel : Nat) (s : AState) (nm : Option String),
      analyzeLiteralType ctx (fuel + 4) s [.rawExpr "builtins.float" none nm] =
        .ok (.anyT .fromError none)
          (addMsg s "Parameter 1 of Literal[...] cannot be of type \"float\"")) :=
  ⟨rfl, fun ctx fuel s nm => rfl⟩

/-- C6: the callable-signature special form: zero arguments yield the
arbitrary-arguments signature returning the omitted unknown; a bracketed
first argument takes each entry's kind from its constructor — a plain
type is required positional, a DefaultArg entry optional positional —
with the second argument as return type; an ellipsis first argument
yields the arbitrary-arguments signature returning the second argument;
any other arity is diagnosed and yields the unknown/error type. -/
theorem C6_callable_signature :
    (analyzeCallableType ctxCallable 8 baseState
        (.unbound "Callable" [] false false none none) "Callable" [] =
      .ok (.callable
        [.anyT .fromOmittedGenerics none, .anyT .fromOmittedGenerics none]
        [ARG_STAR, ARG_STAR2] [none, none] (.anyT .fromOmittedGenerics none)
        (.inst funcInfo [] false none) [] true) baseState) ∧
    (analyzeCallableType ctxCallable 12 baseState
        (.unbound "Callable"
          [.typeList [.unbound "int" [] false false none none,
            .callableArg (.unbound "str" [] false false none none) none
              (some "DefaultArg")],
           .unbound "bool" [] false false none none] false false none none)
        "Callable"
        [.typeList [.unbound "int" [] false false none none,
          .callableArg (.unbound "str" [] false false none none) none
            (some "DefaultArg")],
         .unbound "bool" [] false false none none] =
      .ok (.callable [.inst intInfo [] false none, .inst strInfo [] false none]
        [ARG_POS, ARG_OPT] [none, none] (.inst boolInfo [] false none)
        (.inst funcInfo [] false none) [] false) baseState) ∧
    (analyzeCallableType ctxCallable 10 baseState
        (.unbound "Callable" [.ellipsisT, .unbound "bool" [] false false none
          none] false false none none) "Callable"
        [.ellipsisT, .unbound "bool" [] false false none none] =
      .ok (.callable [.anyT .explicit none, .anyT .explicit none]
        [ARG_STAR, ARG_STAR2] [none, none] (.inst boolInfo [] false none)
        (.inst funcInfo [] false none) [] true) baseState) ∧
    (∀ (fuel : Nat) (s : AState) (t : MType) (args : List MType),
      args.length ≠ 0 → args.length ≠ 2 →
      analyzeCallableType ctxCallable (fuel + 1) s t "Callable" args =
        .ok (.anyT .fromError none)
          (addMsg s
            "Please use \"Callable[[<parameters>], <return type>]\" or \"Callable\"")) := by
  refine ⟨rfl, rfl, rfl, ?_⟩
  intro fuel s t args h0 h2
  match args with
  | [] => exact absurd rfl h0
  | [a] => rfl
  | [a, b] => exact absurd rfl h2
  | a :: b :: c :: rest => rfl

/-- Witness for C6 discharging the arity hypotheses at a one-argument
call. -/
theorem C6_callable_signature_witness :
    analyzeCallableType ctxCallable 1 baseState
        (.unbound "Callable" [.noneT] false false none none) "Callable"
        [.noneT] =
      .ok (.anyT .fromError none)
        (addMsg baseState
          "Please use \"Callable[[<parameters>], <return type>]\" or \"Callable\"") :=
  C6_callable_signature.2.2.2 0 baseState
    (.unbound "Callable" [.noneT] false false none none) [.noneT]
    (by decide) (by decide)

/-- Evolution is reflexive. -/
theorem stEv_refl (s : AState) : stEv s s :=
  ⟨⟨[], rfl⟩, id, id⟩

/-- Evolution is transitive. -/
theorem stEv_trans {a b c : AState} (h1 : stEv a b) (h2 : stEv b c) : stEv a c := by
  obtain ⟨⟨d1, hm1⟩, hd1, hi1⟩ := h1
  obtain ⟨⟨d2, hm2⟩, hd2, hi2⟩ := h2
  exact ⟨⟨d2 ++ d1, by rw [hm2, hm1, List.append_assoc]⟩,
    fun h => hd2 (hd1 h), fun h => hi2 (hi1 h)⟩

/-- An outcome at an evolved state evolves. -/
theorem resEv_ok {α : Type} {s s2 : AState} (a : α) (h : stEv s s2) :
    resEv s (Res.ok a s2) := h

/-- A raise at an evolved state evolves. -/
theorem resEv_raised {α : Type} {s s2 : AState} (m : String) (h : stEv s s2) :
    resEv s (Res.raised m s2 : Res α) := h

/-- Fuel exhaustion evolves vacuously. -/
theorem resEv_out {α : Type} {s : AState} : resEv s (Res.out : Res α) :=
  trivial

/-- Evolution from an earlier state. -/
theorem resEv_mono {α : Type} {s s1 : AState} {r : Res α} (h : stEv s s1)
    (h2 : resEv s1 r) : resEv s r := by
  cases r with
  | ok a s2 => exact stEv_trans h h2
  | raised m s2 => exact stEv_trans h h2
  | out => trivial

/-- Evolution composes through sequencing. -/
theorem resEv_bind {α β : Type} {s : AState} {x : Res α} {f : α → AState → Res β}
    (hx : resEv s x) (hf : ∀ a s1, resEv s1 (f a s1)) : resEv s (x.bind f) := by
  cases x with
  | ok a s1 => exact resEv_mono hx (hf a s1)
  | raised m s1 => exact hx
  | out => trivial

/-- Emitting one diagnostic evolves the state. -/
theorem stEv_addMsg (s : AState) (m : String) : stEv s (addMsg s m) :=
  ⟨⟨[m], rfl⟩, id, id⟩

/-- Emitting a diagnostic batch evolves the state. -/
theorem stEv_addMsgs (s : AState) (ms : List String) : stEv s (addMsgs s ms) :=
  ⟨⟨ms.reverse, rfl⟩, id, id⟩

/-- Emitting one note evolves the state. -/
theorem stEv_addNote (s : AState) (m : String) : stEv s (addNote s m) :=
  ⟨⟨[], rfl⟩, id, id⟩

/-- Emitting a note batch evolves the state. -/
theorem stEv_addNotes (s : AState) (ms : List String) : stEv s (addNotes s ms) :=
  ⟨⟨[], rfl⟩, id, id⟩

/-- Requesting a deferral evolves the state. -/
theorem stEv_setDeferred (s : AState) : stEv s { s with deferred := true } :=
  ⟨⟨[], rfl⟩, fun _ => rfl, id⟩

/-- Recording an incomplete reference evolves the state. -/
theorem stEv_setIncomplete (s : AState) : stEv s { s with incompleteRef := true } :=
  ⟨⟨[], rfl⟩, id, fun _ => rfl⟩

/-- Replacing the scope evolves the state. -/
theorem stEv_setScope (s : AState) (sc : TVarScope) :
    stEv s { s with tvarScope := sc } :=
  ⟨⟨[], rfl⟩, id, id⟩

/-- Bumping the nesting counter evolves the state. -/
theorem stEv_bumpNest (s : AState) : stEv s (bumpNest s) :=
  ⟨⟨[], rfl⟩, id, id⟩

/-- Dropping the nesting counter evolves the state. -/
theorem stEv_dropNest (s : AState) : stEv s (dropNest s) :=
  ⟨⟨[], rfl⟩, id, id⟩

/-- Recording a used alias evolves the state. -/
theorem stEv_setAliases (s : AState) (l : List String) :
    stEv s { s with aliasesUsed := l } :=
  ⟨⟨[], rfl⟩, id, id⟩

/-- Class lookup evolves the state. -/
theorem resEv_namedType (ctx : Ctx) (s : AState) (n : String)
    (args : Option (List MType)) : resEv s (namedType ctx s n args) := by
  unfold namedType
  split
  · exact stEv_refl s
  · split
    · exact stEv_refl s
    · exact stEv_refl s

/-- Normalized class lookup evolves the state. -/
theorem resEv_namedTypeNorm (ctx : Ctx) (s : AState) (n : String) :
    resEv s (namedTypeWithNormalizedStr ctx s n) :=
  resEv_namedType ctx s _ none

/-- The tuple helper evolves the state. -/
theorem resEv_tupleTypeHelper (ctx : Ctx) (s : AState) (items : List MType) :
    resEv s (tupleTypeHelper ctx s items) :=
  resEv_bind (resEv_namedType ctx s _ _) (fun fb s2 => stEv_refl s2)

/-- Conditionally emitting a diagnostic evolves the state. -/
theorem stEv_condMsg (s : AState) (c : Bool) (m : String) :
    stEv s (if c = true then addMsg s m else s) := by
  cases c
  · rw [if_neg (by simp)]; exact stEv_refl s
  · rw [if_pos rfl]; exact stEv_addMsg s m

/-- Binding declared type variables evolves the state. -/
theorem resEv_bindDeclaredVars (ctx : Ctx) :
    ∀ (l : List TypeVarDefL) (s : AState), resEv s (bindDeclaredVars ctx s l) := by
  intro l
  induction l with
  | nil => intro s; exact stEv_refl s
  | cons v rest ih =>
    intro s
    simp only [bindDeclaredVars]
    split
    · exact stEv_refl s
    · split
      · rcases hp : s.tvarScope.bindNew v.name _ with ⟨sc2, w2⟩
        exact resEv_mono (stEv_setScope s sc2) (ih _)
      · exact stEv_refl s

/-- Binding inferred type variables evolves the state. -/
theorem resEv_bindInferred (ctx : Ctx) :
    ∀ (l : List (String × TVExpr)) (s : AState), resEv s (bindInferred ctx s l) := by
  intro l
  induction l with
  | nil => intro s; exact stEv_refl s
  | cons p rest ih =>
    intro s
    obtain ⟨name, tvar⟩ := p
    simp only [bindInferred]
    have hc : stEv s (if (!(s.tvarScope.allowBinding tvar.fullname)) = true
        then addMsg s ("Type variable \"" ++ name ++ "\" is bound by an outer class")
        else s) := stEv_condMsg s _ _
    generalize hg : (if (!(s.tvarScope.allowBinding tvar.fullname)) = true
        then addMsg s ("Type variable \"" ++ name ++ "\" is bound by an outer class")
        else s) = s1 at hc ⊢
    rcases hp : s1.tvarScope.bindNew name tvar with ⟨sc2, w2⟩
    split
    · exact stEv_trans hc (stEv_setScope s1 sc2)
    · exact resEv_bind (resEv_mono (stEv_trans hc (stEv_setScope s1 sc2)) (ih _))
        (fun defs s3 => stEv_refl s3)

/-- Binding a signature's type variables evolves the state. -/
theorem resEv_bindFunctionTypeVariables (ctx : Ctx) (s : AState)
    (argTypes : List MType) (retType : MType) (declared : List TypeVarDefL) :
    resEv s (bindFunctionTypeVariables ctx s argTypes retType declared) := by
  unfold bindFunctionTypeVariables
  split
  · exact resEv_bind (resEv_bindDeclaredVars ctx declared s)
      (fun _ s2 => stEv_refl s2)
  · exact resEv_bindInferred ctx _ s

/-- The scope-restoring outcome wrapper evolves the state whenever the
body does. -/
theorem resEv_scopeGuard {s s1 : AState} {body : Res MType} (old : TVarScope)
    (h1 : stEv s s1) (h2 : resEv s1 body) :
    resEv s (match body with
      | .ok r s2 => Res.ok r { s2 with tvarScope := old }
      | .raised m s2 => Res.raised m s2
      | .out => Res.out) := by
  cases body with
  | ok r s2 => exact stEv_trans (stEv_trans h1 h2) (stEv_setScope s2 old)
  | raised m s2 => exact stEv_trans h1 h2
  | out => trivial

/-- Every function of the resolver evolves the analysis state: diagnostics
and notes only accumulate, and the deferral and incomplete-reference
signals are never reset. -/
theorem evAll (ctx : Ctx) : ∀ fuel : Nat,
    (∀ s t, resEv s (visitType ctx fuel s t)) ∧
    (∀ s name args opt eti se sf dl,
      resEv s (visitUnboundType ctx fuel s name args opt eti se sf dl)) ∧
    (∀ s name args opt eti se sf dl,
      resEv s (visitUnboundTypeNonoptional ctx fuel s name args opt eti se sf dl)) ∧
    (∀ s t name args eti fullname,
      resEv s (tryAnalyzeSpecial ctx fuel s t name args eti fullname)) ∧
    (∀ s info args, resEv s (analyzeTypeWithTypeInfo ctx fuel s info args)) ∧
    (∀ s name args opt eti se sf sym dl,
      resEv s (analyzeUnboundWithoutTypeInfo ctx fuel s name args opt eti se sf sym dl)) ∧
    (∀ s t name args, resEv s (analyzeCallableType ctx fuel s t name args)) ∧
    (∀ s items, resEv s (analyzeCallableArgs ctx fuel s items)) ∧
    (∀ s items, resEv s (callableArgsLoop ctx fuel s items)) ∧
    (∀ s args, resEv s (analyzeLiteralType ctx fuel s args)) ∧
    (∀ s idx args, resEv s (literalParamsEnum ctx fuel s idx args)) ∧
    (∀ s idx arg, resEv s (analyzeLiteralParam ctx fuel s idx arg)) ∧
    (∀ s idx arg, resEv s (literalParamCore ctx fuel s idx arg)) ∧
    (∀ s idx items, resEv s (literalParamUnion ctx fuel s idx items)) ∧
    (∀ s argTypes kinds names retType fb tvs ell nested,
      resEv s (visitCallableType ctx fuel s argTypes kinds names retType fb tvs ell nested)) ∧
    (∀ s varDefs, resEv s (analVarDefs ctx fuel s varDefs)) ∧
    (∀ s items fb impl, resEv s (visitTupleType ctx fuel s items fb impl)) ∧
    (∀ s fields, resEv s (visitTypedDictFields ctx fuel s fields)) ∧
    (∀ s fn args, resEv s (visitPlaceholderType ctx fuel s fn args)) ∧
    (∀ s t nested, resEv s (analType ctx fuel s t nested)) ∧
    (∀ s ts nested, resEv s (analArray ctx fuel s ts nested)) := by
  intro fuel
  induction fuel with
  | zero =>
    refine ⟨?_, ?_, ?_, ?_, ?_, ?_, ?_, ?_, ?_, ?_, ?_, ?_, ?_, ?_, ?_, ?_, ?_,
      ?_, ?_, ?_, ?_⟩ <;> (intros; exact resEv_out)
  | succ fuel ih =>
    obtain ⟨iVT, iVUT, iVUN, iTAS, iTI, iNTI, iACT, iACA, iCAL, iALT, iLPE,
      iALP, iLPC, iLPU, iVCT, iAVD, iVTT, iTDF, iVPT, iAT, iAA⟩ := ih
    refine ⟨?_, ?_, ?_, ?_, ?_, ?_, ?_, ?_, ?_, ?_, ?_, ?_, ?_, ?_, ?_, ?_, ?_,
      ?_, ?_, ?_, ?_⟩
    -- visitType
    · intro s t
      cases t with
      | unbound name args opt eti se sf => exact iVUT s name args opt eti se sf false
      | anyT p mi => exact stEv_refl s
      | noneT => exact stEv_refl s
      | uninhabited nr => exact stEv_refl s
      | deleted => exact stEv_refl s
      | typeList items => exact stEv_trans (stEv_addMsg s _) (stEv_addNote _ _)
      | callableArg typ an c => exact stEv_addMsg s _
      | inst info args inv lkv => exact stEv_refl s
      | typeVarT d => exact stEv_refl s
      | callable argTypes kinds names retType fb tvs ell =>
        exact iVCT s argTypes kinds names retType fb tvs ell true
      | tupleT items fb impl => exact iVTT s items fb impl
      | typedDict items req fb =>
        exact resEv_bind (iTDF s items) (fun a s2 => stEv_refl s2)
      | rawExpr base litVal noteMsg =>
        simp only [visitType]
        split
        · cases noteMsg with
          | none => exact stEv_addMsg s _
          | some n => exact stEv_trans (stEv_addMsg s _) (stEv_addNote _ _)
        · exact stEv_refl s
      | literalT v fb => exact stEv_refl s
      | starT typ => exact resEv_bind (iAT s typ true) (fun r s2 => stEv_refl s2)
      | unionT items => exact resEv_bind (iAA s items true) (fun rs s2 => stEv_refl s2)
      | partl => exact stEv_refl s
      | ellipsisT => exact stEv_addMsg s _
      | typeTypeT item => exact resEv_bind (iAT s item true) (fun r s2 => stEv_refl s2)
      | placeholder fn args => exact iVPT s fn args
    -- visitUnboundType
    · intro s name args opt eti se sf dl
      refine resEv_bind (iVUN s name args opt eti se sf dl) ?_
      intro typ s2
      split
      · exact stEv_refl s2
      · exact stEv_refl s2
    -- visitUnboundTypeNonoptional
    · intro s name args opt eti se sf dl
      simp only [visitUnboundTypeNonoptional]
      split
      · exact stEv_refl s
      · split
        · -- placeholder node
          split
          · split
            · exact stEv_addMsg s _
            · have hs1 : stEv s (if ctx.cfg.allowPlaceholder = true then
                  { s with deferred := true } else { s with incompleteRef := true }) := by
                split
                · exact stEv_setDeferred s
                · exact stEv_setIncomplete s
              exact resEv_bind (resEv_mono hs1 (iAA _ args true)) (fun ts s2 => stEv_refl s2)
          · split
            · exact stEv_addMsg s _
            · exact stEv_setIncomplete s
        · exact stEv_addMsg s _
        · -- a real node
          split
          · exact stEv_refl s
          · -- no hook
            split
            · -- bound type variable
              split
              · exact stEv_trans (stEv_condMsg s _ _) (stEv_addMsg _ _)
              · split
                · exact stEv_trans (stEv_condMsg s _ _) (stEv_addMsg _ _)
                · exact stEv_condMsg s _ _
            · -- general resolution
              refine resEv_bind (resEv_mono (stEv_condMsg s _ _)
                (iTAS _ _ name args eti _)) ?_
              intro special s2
              split
              · exact stEv_refl s2
              · split
                · -- alias node
                  refine resEv_bind (resEv_mono (stEv_setAliases s2 _) (iAA _ args true)) ?_
                  intro anArgs s4
                  split
                  · exact stEv_refl s4
                  · split
                    · split
                      · exact stEv_trans (stEv_addMsgs s4 _) (stEv_addMsgs _ _)
                      · exact stEv_addMsgs s4 _
                    · exact stEv_addMsgs s4 _
                · exact iTI s2 _ args
                · exact iNTI s2 name args opt eti se sf _ dl
    -- tryAnalyzeSpecial
    · intro s t name args eti fullname
      simp only [tryAnalyzeSpecial]
      split
      · exact stEv_refl s
      · exact stEv_refl s
      · exact stEv_addMsg s _
      · -- Tuple
        split
        · split
          · exact stEv_setIncomplete s
          · exact stEv_addMsg s _
        · split
          · refine resEv_bind (resEv_mono (stEv_addMsgs s _)
              (resEv_namedType ctx _ _ _)) ?_
            intro i s2
            exact stEv_refl s2
          · split
            · refine resEv_bind (iAT s _ true) ?_
              intro item s2
              exact resEv_bind (resEv_namedType ctx s2 _ _) (fun i s3 => stEv_refl s3)
            · refine resEv_bind (iAA s args true) ?_
              intro items s2
              exact resEv_bind (resEv_tupleTypeHelper ctx s2 items)
                (fun tt s3 => stEv_refl s3)
      · -- Union
        exact resEv_bind (iAA s args true) (fun items s2 => stEv_refl s2)
      · -- Optional
        split
        · exact stEv_addMsg s _
        · exact resEv_bind (iAT s _ true) (fun item s2 => stEv_refl s2)
      · -- Callable
        exact resEv_bind (iACT s t name args) (fun r s2 => stEv_refl s2)
      · -- Type
        split
        · exact stEv_addMsgs s _
        · exact resEv_bind (resEv_mono (stEv_condMsg s _ _)
            (iAT _ _ true)) (fun item s3 => stEv_refl s3)
      · -- ClassVar
        have hs1 : stEv s (if s.nestingLevel > 0 then
            addMsg s "Invalid type: ClassVar nested inside other type"
            else s) := by
          split
          · exact stEv_addMsg s _
          · exact stEv_refl s
        split
        · exact hs1
        · split
          · exact stEv_trans hs1
              (stEv_addMsg _ "ClassVar[...] must have at most one type argument")
          · refine resEv_bind (resEv_mono hs1 (iAT _ _ true)) ?_
            intro item s2
            split
            · exact stEv_addMsg s2 _
            · exact stEv_refl s2
      · exact stEv_refl s
      · -- Literal
        exact resEv_bind (iALT s args) (fun r s2 => stEv_refl s2)
      · -- Annotated
        split
        · exact stEv_addMsg s _
        · exact resEv_bind (iAT s _ true) (fun item s2 => stEv_refl s2)
      · exact stEv_refl s
    -- analyzeTypeWithTypeInfo
    · intro s info args
      simp only [analyzeTypeWithTypeInfo]
      split
      · exact resEv_bind (iAA s args true) (fun items s2 => stEv_refl s2)
      · refine resEv_bind (iAA s args true) ?_
        intro anArgs s2
        split
        · split
          · exact stEv_trans (stEv_addMsgs s2 _) (stEv_addMsg _ _)
          · split
            · exact resEv_bind (resEv_mono (stEv_addMsgs s2 _) (iAA _ _ true))
                (fun nitems s4 => stEv_refl s4)
            · exact stEv_addMsgs s2 _
        · split
          · split
            · exact stEv_trans (stEv_addMsgs s2 _) (stEv_addMsg _ _)
            · split
              · exact resEv_bind (resEv_mono (stEv_addMsgs s2 _) (iAA _ _ true))
                  (fun nvals s4 => stEv_refl s4)
              · exact stEv_addMsgs s2 _
          · exact stEv_addMsgs s2 _
    -- analyzeUnboundWithoutTypeInfo
    · intro s name args opt eti se sf sym dl
      simp only [analyzeUnboundWithoutTypeInfo]
      split
      · exact stEv_refl s
      · split
        · exact stEv_refl s
        · split
          · exact stEv_refl s
          · split
            · split
              · exact stEv_addMsg s _
              · exact stEv_refl s
            · refine resEv_bind (iAA s args true) ?_
              intro anArgs s2
              exact stEv_trans (stEv_addMsg s2 _) (stEv_addNotes _ _)
    -- analyzeCallableType
    · intro s t name args
      simp only [analyzeCallableType]
      refine resEv_bind (resEv_namedType ctx s _ _) ?_
      intro fallback s1
      cases args with
      | nil =>
        rcases hm : mGetOmittedAny ctx t none with ⟨anyType, msgs⟩
        exact resEv_mono (stEv_addMsgs s1 msgs) (iVT _ _)
      | cons arg0 rest =>
        cases rest with
        | nil => exact stEv_addMsg s1 _
        | cons a2 rest2 =>
          cases rest2 with
          | cons a3 rest3 => exact stEv_addMsg s1 _
          | nil =>
            cases arg0 <;>
              first
              | (refine resEv_bind (iACA s1 _) ?_
                 intro analyzed s2
                 cases analyzed with
                 | none => exact stEv_refl s2
                 | some tr =>
                   obtain ⟨targs, kinds2, names2⟩ := tr
                   exact iVT s2 _)
              | exact iVT s1 _
              | exact stEv_addMsg s1 _
    -- analyzeCallableArgs
    · intro s items
      simp only [analyzeCallableArgs]
      refine resEv_bind (iCAL s items) ?_
      intro acc s2
      split
      · exact stEv_refl s2
      · exact stEv_trans (stEv_addMsgs s2 _) (stEv_addMsgs _ _)
    -- callableArgsLoop
    · intro s items
      cases items with
      | nil => exact stEv_refl s
      | cons arg rest =>
        simp only [callableArgsLoop]
        split
        · split
          · exact stEv_refl s
          · split
            · exact stEv_refl s
            · split
              · exact stEv_addMsg s _
              · split
                · exact stEv_addMsg s _
                · refine resEv_bind (iCAL s rest) ?_
                  intro acc s2
                  split
                  · exact stEv_refl s2
                  · exact stEv_refl s2
        · refine resEv_bind (iCAL s rest) ?_
          intro acc s2
          split
          · exact stEv_refl s2
          · exact stEv_refl s2
    -- analyzeLiteralType
    · intro s args
      simp only [analyzeLiteralType]
      split
      · exact stEv_addMsg s _
      · refine resEv_bind (iLPE s 1 args) ?_
        intro outOpt s2
        split
        · exact stEv_refl s2
        · exact stEv_refl s2
    -- literalParamsEnum
    · intro s idx args
      cases args with
      | nil => exact stEv_refl s
      | cons arg rest =>
        refine resEv_bind (iALP s idx arg) ?_
        intro r s2
        split
        · exact stEv_refl s2
        · refine resEv_bind (iLPE s2 (idx + 1) rest) ?_
          intro rs s3
          split
          · exact stEv_refl s3
          · exact stEv_refl s3
    -- analyzeLiteralParam
    · intro s idx arg
      simp only [analyzeLiteralParam]
      split
      · split
        · exact resEv_bind (resEv_namedTypeNorm ctx s _) (fun fb s2 => stEv_refl s2)
        · exact stEv_refl s
      · rename_i name uargs opt eti sf
        cases hv : visitUnboundType ctx fuel (bumpNest s) name uargs opt eti none sf true with
        | ok r s2 =>
          have h0 := iVUT (bumpNest s) name uargs opt eti none sf true
          rw [hv] at h0
          exact resEv_mono
            (stEv_trans (stEv_trans (stEv_bumpNest s) h0) (stEv_dropNest s2))
            (iLPC (dropNest s2) idx r)
        | raised m s2 =>
          have h0 := iVUT (bumpNest s) name uargs opt eti none sf true
          rw [hv] at h0
          exact stEv_trans (stEv_trans (stEv_bumpNest s) h0) (stEv_dropNest s2)
        | out => trivial
      · exact iLPC s idx _
    -- literalParamCore
    · intro s idx arg
      simp only [literalParamCore]
      split
      · exact stEv_condMsg s _ _
      · split
        · exact stEv_addMsg s _
        · exact resEv_bind (resEv_namedTypeNorm ctx s _) (fun fb s2 => stEv_refl s2)
      · exact stEv_refl s
      · exact stEv_refl s
      · exact stEv_refl s
      · exact iLPU s idx _
      · exact stEv_addMsg s _
    -- literalParamUnion
    · intro s idx items
      cases items with
      | nil => exact stEv_refl s
      | cons u rest =>
        refine resEv_bind (iALP s idx u) ?_
        intro r s2
        split
        · exact stEv_refl s2
        · refine resEv_bind (iLPU s2 idx rest) ?_
          intro rs s3
          split
          · exact stEv_refl s3
          · exact stEv_refl s3
    -- visitCallableType
    · intro s argTypes kinds names retType fb tvs ell nested
      have hfb : ∀ s4 : AState, resEv s4 (match fb with
          | .inst info iargs inv lkv =>
            if info.fake then namedType ctx s4 "builtins.function" none
            else Res.ok (MType.inst info iargs inv lkv) s4
          | _ => namedType ctx s4 "builtins.function" none) := by
        intro s4
        split
        · split
          · exact resEv_namedType ctx s4 _ _
          · exact stEv_refl s4
        · exact resEv_namedType ctx s4 _ _
      have hstart : ∀ s1 : AState, resEv s1 (if ctx.cfg.definingAlias = true
          then Res.ok tvs s1
          else bindFunctionTypeVariables ctx s1 argTypes retType tvs) := by
        intro s1
        split
        · exact stEv_refl s1
        · exact resEv_bindFunctionTypeVariables ctx s1 argTypes retType tvs
      exact resEv_scopeGuard s.tvarScope (stEv_setScope s _)
        (resEv_bind (hstart _) (fun vars s2 =>
          resEv_bind (iAA s2 argTypes nested) (fun nArgTypes s3 =>
            resEv_bind (iAT s3 retType nested) (fun nRet s4 =>
              resEv_bind (hfb s4) (fun nFb s5 =>
                resEv_bind (iAVD s5 vars) (fun nVars s6 => stEv_refl s6))))))
    -- analVarDefs
    · intro s varDefs
      cases varDefs with
      | nil => exact stEv_refl s
      | cons vd rest =>
        exact resEv_bind (iAA s vd.values true) (fun nVals s2 =>
          resEv_bind (iVT s2 vd.upperBound) (fun nUb s3 =>
            resEv_bind (iAVD s3 rest) (fun nRest s4 => stEv_refl s4)))
    -- visitTupleType
    · intro s items fb impl
      simp only [visitTupleType]
      split
      · split
        · exact stEv_trans (stEv_addMsg s _) (stEv_addNote _ _)
        · exact stEv_trans (stEv_addMsg s _) (stEv_addNote _ _)
      · split
        · split
          · exact resEv_bind (resEv_mono (stEv_addMsg s _) (resEv_namedType ctx _ _ _))
              (fun fb2 s2 => stEv_refl s2)
          · exact stEv_addMsg s _
        · have hfb : resEv s (match fb with
              | .inst info iargs inv lkv =>
                if info.fake then
                  namedType ctx s "builtins.tuple" (some [.anyT .specialForm none])
                else Res.ok (MType.inst info iargs inv lkv) s
              | _ => namedType ctx s "builtins.tuple" (some [.anyT .specialForm none])) := by
            split
            · split
              · exact resEv_namedType ctx s _ _
              · exact stEv_refl s
            · exact resEv_namedType ctx s _ _
          refine resEv_bind hfb ?_
          intro nFb s2
          exact resEv_bind (iAA s2 items true) (fun nItems s3 => stEv_refl s3)
    -- visitTypedDictFields
    · intro s fields
      cases fields with
      | nil => exact stEv_refl s
      | cons p rest =>
        obtain ⟨n, t⟩ := p
        exact resEv_bind (iAT s t true) (fun r s2 =>
          resEv_bind (iTDF s2 rest) (fun rs s3 => stEv_refl s3))
    -- visitPlaceholderType
    · intro s fn args
      simp only [visitPlaceholderType]
      split
      · exact stEv_setDeferred s
      · split
        · exact stEv_setDeferred s
        · exact iTI s _ args
        · exact stEv_refl s
    -- analType
    · intro s t nested
      simp only [analType]
      have hs1 : stEv s (if nested = true then bumpNest s else s) := by
        split
        · exact stEv_bumpNest s
        · exact stEv_refl s
      have hvd : ∀ s2 : AState, stEv s2 (if nested = true then dropNest s2 else s2) := by
        intro s2
        split
        · exact stEv_dropNest s2
        · exact stEv_refl s2
      cases hv : visitType ctx fuel (if nested = true then bumpNest s else s) t with
      | ok r s2 =>
        have h0 := iVT (if nested = true then bumpNest s else s) t
        rw [hv] at h0
        exact stEv_trans (stEv_trans hs1 h0) (hvd s2)
      | raised m s2 =>
        have h0 := iVT (if nested = true then bumpNest s else s) t
        rw [hv] at h0
        exact stEv_trans (stEv_trans hs1 h0) (hvd s2)
      | out => trivial
    -- analArray
    · intro s ts nested
      cases ts with
      | nil => exact stEv_refl s
      | cons t rest =>
        exact resEv_bind (iAT s t nested) (fun r s2 =>
          resEv_bind (iAA s2 rest nested) (fun rs s3 => stEv_refl s3))

/-- A sequenced step that returns evolves the state, stepwise. -/
theorem stEv_of_bind_ok {α β : Type} {s : AState} {x : Res α}
    {f : α → AState → Res β} {r : β} {s2 : AState}
    (hx : resEv s x) (hf : ∀ a s1, resEv s1 (f a s1))
    (h : x.bind f = Res.ok r s2) : stEv s s2 := by
  cases x with
  | ok a s1 =>
    have hb : f a s1 = Res.ok r s2 := h
    have h2 := hf a s1
    rw [hb] at h2
    exact stEv_trans hx h2
  | raised m s1 => exact absurd h (by simp [Res.bind])
  | out => exact absurd h (by simp [Res.bind])

/-- A sequenced step that raises evolves the state, stepwise. -/
theorem stEv_of_bind_raised {α β : Type} {s : AState} {x : Res α}
    {f : α → AState → Res β} {m : String} {s2 : AState}
    (hx : resEv s x) (hf : ∀ a s1, resEv s1 (f a s1))
    (h : x.bind f = Res.raised m s2) : stEv s s2 := by
  cases x with
  | ok a s1 =>
    have hb : f a s1 = Res.raised m s2 := h
    have h2 := hf a s1
    rw [hb] at h2
    exact stEv_trans hx h2
  | raised m1 s1 =>
    have hb : Res.raised (α := β) m1 s1 = Res.raised m s2 := h
    injection hb with h1 h2
    subst h2
    exact hx
  | out => exact absurd h (by simp [Res.bind])

/-- Nested resolution evolves the state (the anal_type component of the
evolution induction). -/
theorem ev_analType (ctx : Ctx) (fuel : Nat) (s : AState) (t : MType)
    (nested : Bool) : resEv s (analType ctx fuel s t nested) :=
  ((evAll ctx fuel).2.2.2.2.2.2.2.2.2.2.2.2.2.2.2.2.2.2.2).1 s t nested

/-- C8: the class-variable qualifier is legal only at nesting level zero —
when resolved nested inside another type the nesting diagnostic is
reported no matter how the resolution ends; it takes zero or one
argument, more being diagnosed with the unknown/error result; an
analyzed argument containing a type variable is rejected as an error
yielding the unknown/error type; and at nesting level zero the bare
qualifier is accepted silently with the state unchanged. -/
theorem C8_classvar_qualifier :
    (∀ (ctx : Ctx) (fuel : Nat) (s : AState) (t : MType) (name : String)
        (args : List MType) (eti : Bool) (r : Option MType) (s2 : AState),
      s.nestingLevel > 0 →
      tryAnalyzeSpecial ctx (fuel + 1) s t name args eti "typing.ClassVar" =
        Res.ok r s2 →
      "Invalid type: ClassVar nested inside other type" ∈ s2.messages) ∧
    (∀ (ctx : Ctx) (fuel : Nat) (s : AState) (t : MType) (name : String)
        (args : List MType) (eti : Bool) (m : String) (s2 : AState),
      s.nestingLevel > 0 →
      tryAnalyzeSpecial ctx (fuel + 1) s t name args eti "typing.ClassVar" =
        Res.raised m s2 →
      "Invalid type: ClassVar nested inside other type" ∈ s2.messages) ∧
    (∀ (ctx : Ctx) (fuel : Nat) (s : AState) (t : MType) (name : String)
        (args : List MType) (eti : Bool),
      2 ≤ args.length →
      tryAnalyzeSpecial ctx (fuel + 1) s t name args eti "typing.ClassVar" =
        Res.ok (some (.anyT .fromError none))
          (addMsg
            (if s.nestingLevel > 0 then
              addMsg s "Invalid type: ClassVar nested inside other type"
            else s)
            "ClassVar[...] must have at most one type argument")) ∧
    (∀ (ctx : Ctx) (fuel : Nat) (s : AState) (t : MType) (name : String)
        (arg0 : MType) (eti : Bool) (item : MType) (s2 : AState),
      s.nestingLevel = 0 →
      analType ctx fuel s arg0 true = Res.ok item s2 →
      ((match item with | MType.typeVarT _ => true | _ => false) ||
        !(getTypeVars item).isEmpty) = true →
      tryAnalyzeSpecial ctx (fuel + 1) s t name [arg0] eti "typing.ClassVar" =
        Res.ok (some (.anyT .fromError none))
          (addMsg s2 "Invalid type: ClassVar cannot be generic")) ∧
    (∀ (ctx : Ctx) (fuel : Nat) (s : AState) (t : MType) (name : String)
        (eti : Bool),
      s.nestingLevel = 0 →
      tryAnalyzeSpecial ctx (fuel + 1) s t name [] eti "typing.ClassVar" =
        Res.ok (some (.anyT .fromOmittedGenerics none)) s) := by
  have hk : specialKind "typing.ClassVar" = SForm.classVarF := rfl
  have hf : ∀ (a : MType) (s1 : AState), resEv s1
      (if ((match a with | MType.typeVarT _ => true | _ => false) ||
          !(getTypeVars a).isEmpty) = true
       then Res.ok (α := Option MType) (some (.anyT .fromError none))
         (addMsg s1 "Invalid type: ClassVar cannot be generic")
       else Res.ok (some a) s1) := by
    intro a s1
    split
    · exact stEv_addMsg s1 _
    · exact stEv_refl s1
  refine ⟨?_, ?_, ?_, ?_, ?_⟩
  · intro ctx fuel s t name args eti r s2 hn h
    simp only [tryAnalyzeSpecial, hk] at h
    rw [if_pos hn] at h
    split at h
    · injection h with h1 h2
      subst h2
      exact List.mem_cons_self _ _
    · split at h
      · injection h with h1 h2
        subst h2
        exact List.mem_cons_of_mem _ (List.mem_cons_self _ _)
      · have hst := stEv_of_bind_ok (ev_analType ctx fuel _ _ true) hf h
        obtain ⟨⟨d, hm⟩, _, _⟩ := hst
        rw [hm]
        exact List.mem_append_right _ (List.mem_cons_self _ _)
  · intro ctx fuel s t name args eti m s2 hn h
    simp only [tryAnalyzeSpecial, hk] at h
    rw [if_pos hn] at h
    split at h
    · exact Res.noConfusion h
    · split at h
      · exact Res.noConfusion h
      · have hst := stEv_of_bind_raised (ev_analType ctx fuel _ _ true) hf h
        obtain ⟨⟨d, hm⟩, _, _⟩ := hst
        rw [hm]
        exact List.mem_append_right _ (List.mem_cons_self _ _)
  · intro ctx fuel s t name args eti h
    have h0 : (args.length == 0) = false := by
      simp only [beq_eq_false_iff_ne, ne_eq]
      omega
    have h1 : (args.length != 1) = true := by
      simp only [bne_iff_ne, ne_eq]
      omega
    simp [tryAnalyzeSpecial, hk, h0, h1]
  · intro ctx fuel s t name arg0 eti item s2 hn hAT htv
    have hno : ¬ s.nestingLevel > 0 := by omega
    simp only [tryAnalyzeSpecial, hk]
    rw [if_neg hno]
    have h0 : (([arg0].length : Nat) == 0) = false := rfl
    have h1 : (([arg0].length : Nat) != 1) = false := rfl
    rw [h0, h1]
    simp only [Bool.false_eq_true, if_false, List.headD]
    rw [hAT]
    simp only [Res.bind]
    rw [if_pos htv]
  · intro ctx fuel s t name eti hn
    have hno : ¬ s.nestingLevel > 0 := by omega
    simp only [tryAnalyzeSpecial, hk]
    rw [if_neg hno]
    rfl

/-- Concrete instantiation of every part of the ClassVar qualifier
theorem. -/
theorem C8_classvar_qualifier_witness :
    ("Invalid type: ClassVar nested inside other type" ∈
      (addMsg { baseState with nestingLevel := 1 }
        "Invalid type: ClassVar nested inside other type").messages) ∧
    ("Invalid type: ClassVar nested inside other type" ∈
      (dropNest (bumpNest (addMsg { baseState with nestingLevel := 1 }
        "Invalid type: ClassVar nested inside other type"))).messages) ∧
    (tryAnalyzeSpecial ctxEmpty 1 baseState .noneT "ClassVar" [.noneT, .noneT]
        true "typing.ClassVar" =
      Res.ok (some (.anyT .fromError none))
        (addMsg
          (if baseState.nestingLevel > 0 then
            addMsg baseState "Invalid type: ClassVar nested inside other type"
          else baseState)
          "ClassVar[...] must have at most one type argument")) ∧
    (tryAnalyzeSpecial ctxEmpty 3 baseState .noneT "ClassVar"
        [.typeVarT ⟨"T", "m.T", 0, [], .anyT .explicit none, 0⟩] true
        "typing.ClassVar" =
      Res.ok (some (.anyT .fromError none))
        (addMsg (dropNest (bumpNest baseState))
          "Invalid type: ClassVar cannot be generic")) ∧
    (tryAnalyzeSpecial ctxEmpty 1 baseState .noneT "ClassVar" [] true
        "typing.ClassVar" =
      Res.ok (some (.anyT .fromOmittedGenerics none)) baseState) :=
  ⟨C8_classvar_qualifier.1 ctxEmpty 0 { baseState with nestingLevel := 1 }
      .noneT "ClassVar" [] true _ _ (by decide) rfl,
   C8_classvar_qualifier.2.1 ctxEmpty 2 { baseState with nestingLevel := 1 }
      .noneT "ClassVar" [.partl] true _ _ (by decide) rfl,
   C8_classvar_qualifier.2.2.1 ctxEmpty 0 baseState .noneT "ClassVar"
      [.noneT, .noneT] true (by decide),
   C8_classvar_qualifier.2.2.2.1 ctxEmpty 2 baseState .noneT "ClassVar"
      (.typeVarT ⟨"T", "m.T", 0, [], .anyT .explicit none, 0⟩) true
      (.typeVarT ⟨"T", "m.T", 0, [], .anyT .explicit none, 0⟩)
      (dropNest (bumpNest baseState)) rfl rfl rfl,
   C8_classvar_qualifier.2.2.2.2 ctxEmpty 0 baseState .noneT "ClassVar" true rfl⟩

/-- The totality contract is violated: resolving a partial type raises the
internal assertion (visit_partial_type is assert False), so resolve does
not return a canonical type on every dispatch case. -/
theorem C2_counterexample :
    visitType ctxEmpty 1 baseState .partl =
      Res.raised "Internal error: Unexpected partial type" baseState := rfl

/-- C2 (amended): resolution is total except for the partial-type
assertion — a partial type raises the internal error for every context,
state and fuel; already-canonical inputs return themselves with the state
unchanged; and the diagnosed dispatch errors (bracketed list, stray
argument constructor, stray ellipsis, misused Final qualifier, wrong
Optional arity) recover locally with the dynamic type of error
provenance and the diagnostic instead of raising. -/
theorem C2_totality :
    (∀ (ctx : Ctx) (fuel : Nat) (s : AState),
      visitType ctx (fuel + 1) s .partl =
        Res.raised "Internal error: Unexpected partial type" s) ∧
    (∀ (ctx : Ctx) (fuel : Nat) (s : AState) (p : TypeOfAny) (mi : Option String),
      visitType ctx (fuel + 1) s (.anyT p mi) = Res.ok (.anyT p mi) s) ∧
    (∀ (ctx : Ctx) (fuel : Nat) (s : AState),
      visitType ctx (fuel + 1) s .noneT = Res.ok .noneT s) ∧
    (∀ (ctx : Ctx) (fuel : Nat) (s : AState) (nr : Bool),
      visitType ctx (fuel + 1) s (.uninhabited nr) = Res.ok (.uninhabited nr) s) ∧
    (∀ (ctx : Ctx) (fuel : Nat) (s : AState),
      visitType ctx (fuel + 1) s .deleted = Res.ok .deleted s) ∧
    (∀ (ctx : Ctx) (fuel : Nat) (s : AState) (info : TypeInfo)
        (args : List MType) (inv : Bool) (lkv : Option MType),
      visitType ctx (fuel + 1) s (.inst info args inv lkv) =
        Res.ok (.inst info args inv lkv) s) ∧
    (∀ (ctx : Ctx) (fuel : Nat) (s : AState) (d : TypeVarDefL),
      visitType ctx (fuel + 1) s (.typeVarT d) = Res.ok (.typeVarT d) s) ∧
    (∀ (ctx : Ctx) (fuel : Nat) (s : AState) (v : LitVal) (fb : MType),
      visitType ctx (fuel + 1) s (.literalT v fb) = Res.ok (.literalT v fb) s) ∧
    (∀ (ctx : Ctx) (fuel : Nat) (s : AState) (items : List MType),
      visitType ctx (fuel + 1) s (.typeList items) =
        Res.ok (.anyT .fromError none)
          (addNote (addMsg s "Bracketed expression \"[...]\" is not valid as a type")
            "Did you mean \"List[...]\"?")) ∧
    (∀ (ctx : Ctx) (fuel : Nat) (s : AState) (typ : MType)
        (an : Option String) (c : Option String),
      visitType ctx (fuel + 1) s (.callableArg typ an c) =
        Res.ok (.anyT .fromError none) (addMsg s "Invalid type")) ∧
    (∀ (ctx : Ctx) (fuel : Nat) (s : AState),
      visitType ctx (fuel + 1) s .ellipsisT =
        Res.ok (.anyT .fromError none) (addMsg s "Unexpected \"...\"")) ∧
    (∀ (ctx : Ctx) (fuel : Nat) (s : AState) (t : MType) (name : String)
        (args : List MType) (eti : Bool),
      tryAnalyzeSpecial ctx (fuel + 1) s t name args eti "typing.Final" =
        Res.ok (some (.anyT .fromError none))
          (addMsg s "Final can be only used as an outermost qualifier in a variable annotation")) ∧
    (∀ (ctx : Ctx) (fuel : Nat) (s : AState) (t : MType) (name : String)
        (args : List MType) (eti : Bool),
      args.length ≠ 1 →
      tryAnalyzeSpecial ctx (fuel + 1) s t name args eti "typing.Optional" =
        Res.ok (some (.anyT .fromError none))
          (addMsg s "Optional[...] must have exactly one type argument")) := by
  refine ⟨fun _ _ _ => rfl, fun _ _ _ _ _ => rfl, fun _ _ _ => rfl,
    fun _ _ _ _ => rfl, fun _ _ _ => rfl, fun _ _ _ _ _ _ _ => rfl,
    fun _ _ _ _ => rfl, fun _ _ _ _ _ => rfl, fun _ _ _ _ => rfl,
    fun _ _ _ _ _ _ => rfl, fun _ _ _ => rfl, fun _ _ _ _ _ _ _ => rfl, ?_⟩
  intro ctx fuel s t name args eti h
  have hk : specialKind "typing.Optional" = SForm.optionalF := rfl
  have h1 : (args.length != 1) = true := by
    simp only [bne_iff_ne, ne_eq]
    exact h
  simp [tryAnalyzeSpecial, hk, h1]

/-- Concrete instantiation of the hypothesis-bearing Optional-arity part
of the totality theorem. -/
theorem C2_totality_witness :
    ([] : List MType).length ≠ 1 ∧
    tryAnalyzeSpecial ctxEmpty 1 baseState .noneT "Optional" [] true
        "typing.Optional" =
      Res.ok (some (.anyT .fromError none))
        (addMsg baseState "Optional[...] must have exactly one type argument") :=
  ⟨by decide,
   C2_totality.2.2.2.2.2.2.2.2.2.2.2.2 ctxEmpty 0 baseState .noneT "Optional"
     [] true (by decide)⟩
